import Mathlib

/-!
# Push service: dispatch engine and APNs payload conversion

A shallow embedding of `pkg/worker/worker.go` (the permit-bounded dispatch
engine `Worker.Send` and its pool), of `pkg/conversion/pb2ans.go` (the
conversion of a generic push body to an APNs request) and of
`pkg/worker/ans/worker.go` (the APNs adapter), followed by the properties
proved about them.

Conventions of the embedding.

* A Go `error` is an `Option GoError`; `none` is the nil error.
* A pointer that may be nil is an `Option`.
* Objects mutated in place (the notification object `out`, the payload
  builder) are threaded through the functions that mutate them.
* Collaborators with side effects (the notification factory, the converter
  and the send function) act on an explicit `World`.
* Logging is not modelled: it has no effect on any value the engine returns.
-/

set_option autoImplicit false
set_option linter.dupNamespace false

namespace PushService

/-- A Go error value, identified by its message text. -/
structure GoError where
  msg : String
deriving DecidableEq, Repr

/-! ## pkg/worker/worker.go -/

namespace worker

/-- The sentinel error of worker.go line 12. -/
def ErrInvalidDeviceToken : GoError := ⟨"empty device token"⟩

/-- The sentinel error of worker.go line 13. -/
def ErrUnknownResponseError : GoError := ⟨"unknown response error"⟩

/-- The sentinel error of worker.go line 14. -/
def ErrInvalidOutDataType : GoError := ⟨"invalid out data type"⟩

/-- Modelled from the spec: the declaration of the worker kind enumeration is
outside the source files at hand; a kind is an enumeration tag. -/
abbrev Kind := Nat

/-- Modelled from the spec: the declaration of `Request` is outside the source
files at hand. One dispatch unit: the ordered device tokens and the payload
(the engine reads nothing else of it). -/
structure Request (P : Type) where
  Devices : List String
  Payload : P

/-- Modelled from the spec: the declaration of `Response` is outside the
source files at hand. One result: project id, device token (empty for a
whole-request failure) and an optional error. -/
structure Response where
  ProjectID : String := ""
  DeviceToken : String := ""
  Error : Option GoError := none
deriving DecidableEq, Repr

/-- Modelled from the spec: the declaration of `Config` is outside the source
files at hand; `New` reads these three fields. -/
structure Config where
  ProjectID : String
  NopMode : Bool
  CountThreads : Int

/-- A buffered channel of `struct{}` values: only its capacity and the number
of buffered values matter. -/
structure Chan where
  cap : Nat
  len : Nat
deriving DecidableEq, Repr

/-- The channel `make(chan struct{}, n)`: capacity `n`, nothing buffered. -/
def Chan.make (n : Nat) : Chan := ⟨n, 0⟩

/-- A send `c <- struct{}{}`: succeeds when the buffer has room; `none` when
the sender would block. -/
def Chan.send (c : Chan) : Option Chan :=
  if c.len < c.cap then some ⟨c.cap, c.len + 1⟩ else none

/-- A receive `<-c`: succeeds when a value is buffered; `none` when the
receiver would block. -/
def Chan.recv (c : Chan) : Option Chan :=
  if 0 < c.len then some ⟨c.cap, c.len - 1⟩ else none

/-- What a collaborator call returns: its error, the state it leaves the
notification object in, and the world after the call. -/
structure Outcome (Out World : Type) where
  err : Option GoError
  out : Out
  world : World

/-- The interface `converter.IRequestConverter`: `Convert(payload, out) error`
may fill the notification object `out` in place. -/
structure IRequestConverter (P Out World : Type) where
  Convert : P → Out → World → Outcome Out World

/-- The type `FnNewNotification func() interface{}` of worker.go line 17. -/
abbrev FnNewNotification (Out World : Type) := World → Out × World

/-- The type `FnSendNotification func(ctx, token, out) error` of worker.go
line 18. -/
abbrev FnSendNotification (Out World Ctx : Type) :=
  Ctx → String → Out → World → Outcome Out World

/-- The struct `Worker` of worker.go lines 20-29 (the logger left out). -/
structure Worker (P Out World Ctx : Type) where
  projectID : String
  kind : Kind
  nopMode : Bool
  threads : Chan
  reqConverter : IRequestConverter P Out World
  fnNewNotification : FnNewNotification Out World
  fnSendNotification : FnSendNotification Out World Ctx

/-- The loop of worker.go lines 46-48: `n` sends on the permit channel. -/
def fillThreads : Nat → Chan → Option Chan
  | 0, c => some c
  | n + 1, c => (c.send).bind (fillThreads n)

/-- The constructor `New` of worker.go lines 31-60; `none` would mean that the
filling loop blocks. -/
def New {P Out World Ctx : Type} (cfg : Config) (kind : Kind)
    (reqConverter : IRequestConverter P Out World)
    (fnNewNotification : FnNewNotification Out World)
    (fnSendNotification : FnSendNotification Out World Ctx) :
    Option (Worker P Out World Ctx) :=
  let countThreads : Int := if cfg.CountThreads ≤ 0 then 1 else cfg.CountThreads
  match fillThreads countThreads.toNat (Chan.make countThreads.toNat) with
  | none => none
  | some threads =>
    some
      { projectID := cfg.ProjectID
        kind := kind
        nopMode := cfg.NopMode
        threads := threads
        reqConverter := reqConverter
        fnNewNotification := fnNewNotification
        fnSendNotification := fnSendNotification }

/-- One invocation of a collaborator by the dispatch task, with the arguments
it received and the world it ran in. -/
inductive Call (P Out World Ctx : Type) where
  | newNotification (world : World)
  | convert (payload : P) (out : Out) (world : World)
  | send (ctx : Ctx) (token : String) (out : Out) (world : World)

/-- Is this call a call of the send function? -/
def Call.isSend {P Out World Ctx : Type} : Call P Out World Ctx → Bool
  | .send _ _ _ _ => true
  | _ => false

/-- What the device loop has done: the responses it sent on the channel and the
collaborator calls it made, both in order, and the final object and world. -/
structure LoopResult (P Out World Ctx : Type) where
  responses : List Response
  calls : List (Call P Out World Ctx)
  out : Out
  world : World

/-- The loop `for _, token := range req.Devices` of worker.go lines 96-125,
with `err` the result of `Convert` computed before the loop. -/
def Worker.sendLoop {P Out World Ctx : Type} (w : Worker P Out World Ctx) (ctx : Ctx)
    (err : Option GoError) : List String → Out → World → LoopResult P Out World Ctx
  | [], out, world => { responses := [], calls := [], out := out, world := world }
  | token :: rest, out, world =>
    let resp : Response := { ProjectID := w.projectID, DeviceToken := token }
    match err with
    | some e =>
      -- convert error
      let r := w.sendLoop ctx err rest out world
      { r with responses := { resp with Error := some e } :: r.responses }
    | none =>
      if w.nopMode then
        let r := w.sendLoop ctx err rest out world
        { r with responses := resp :: r.responses }
      else
        let o := w.fnSendNotification ctx token out world
        let resp : Response :=
          match o.err with
          | some e => { resp with Error := some e }
          | none => resp
        let r := w.sendLoop ctx err rest o.out o.world
        { r with
          responses := resp :: r.responses
          calls := Call.send ctx token out world :: r.calls }

/-- What one `Send` has produced once its dispatch task has ended: the
responses sent on the stream in order (the consumer reads them all), whether
the stream was closed and the permit given back, the collaborator calls in
order, and the world the task leaves. -/
structure SendResult (P Out World Ctx : Type) where
  responses : List Response
  closed : Bool
  released : Bool
  calls : List (Call P Out World Ctx)
  world : World

/-- The method `Worker.Send` of worker.go lines 74-129, from the moment the
permit of line 77 is held: the run of the dispatch task of lines 79-126. The
two deferred calls (close the stream, give the permit back) run on every
path. -/
def Worker.Send {P Out World Ctx : Type} (w : Worker P Out World Ctx) (ctx : Ctx)
    (req : Request P) (world : World) : SendResult P Out World Ctx :=
  if req.Devices.length = 0 then
    { responses := [{ ProjectID := w.projectID, Error := some ErrInvalidDeviceToken }]
      closed := true
      released := true
      calls := []
      world := world }
  else
    let n := w.fnNewNotification world
    let c := w.reqConverter.Convert req.Payload n.1 n.2
    let r := w.sendLoop ctx c.err req.Devices c.out c.world
    { responses := r.responses
      closed := true
      released := true
      calls := Call.newNotification world :: Call.convert req.Payload n.1 n.2 :: r.calls
      world := r.world }

end worker

/-! ## The payload builder of the APNs client library

`pb2ans.go` builds its payload with the builder of the external package
`github.com/sideshow/apns2/payload`. The builder is recorded here by what was
set on it: a field is `none` (or `false`) until its setter is called and then
holds the last value passed to the setter. -/

namespace apnspayload

/-- The values `pb2ans.go` stores under custom keys: strings, integers,
booleans and string-to-string maps. -/
inductive Value where
  | str (s : String)
  | int (i : Int)
  | bool (b : Bool)
  | strMap (m : List (String × String))
deriving DecidableEq, Repr

/-- The payload under construction. The alert fields, `sound`, `badge`,
`contentAvailable` and `mutableContent` live under the `aps` key of the wire
payload; `custom` holds the top-level custom keys (none of the keys used by
`pb2ans.go` is `aps`). -/
structure Payload where
  alertTitle : Option String := none
  alertBody : Option String := none
  alertLocKey : Option String := none
  alertLocArgs : Option (List String) := none
  alertTitleLocKey : Option String := none
  alertTitleLocArgs : Option (List String) := none
  sound : Option String := none
  badge : Option Int := none
  contentAvailable : Bool := false
  mutableContent : Bool := false
  custom : List (String × Value) := []
deriving DecidableEq, Repr

/-- The call `payload.NewPayload()`: nothing set. -/
def NewPayload : Payload := {}

/-- The call `p.Custom(key, val)`: a map assignment, so a second value under
the same key replaces the first. -/
def Payload.Custom (p : Payload) (key : String) (val : Value) : Payload :=
  { p with custom := (key, val) :: p.custom.filter (fun kv => kv.1 != key) }

/-- The custom field stored under `key`, if any. -/
def Payload.customField (p : Payload) (key : String) : Option Value :=
  p.custom.lookup key

/-- The call `p.AlertTitle(title)`. -/
def Payload.AlertTitle (p : Payload) (title : String) : Payload :=
  { p with alertTitle := some title }

/-- The call `p.AlertBody(body)`. -/
def Payload.AlertBody (p : Payload) (body : String) : Payload :=
  { p with alertBody := some body }

/-- The call `p.AlertLocKey(key)`. -/
def Payload.AlertLocKey (p : Payload) (key : String) : Payload :=
  { p with alertLocKey := some key }

/-- The call `p.AlertLocArgs(args)`. -/
def Payload.AlertLocArgs (p : Payload) (args : List String) : Payload :=
  { p with alertLocArgs := some args }

/-- The call `p.AlertTitleLocKey(key)`. -/
def Payload.AlertTitleLocKey (p : Payload) (key : String) : Payload :=
  { p with alertTitleLocKey := some key }

/-- The call `p.AlertTitleLocArgs(args)`. -/
def Payload.AlertTitleLocArgs (p : Payload) (args : List String) : Payload :=
  { p with alertTitleLocArgs := some args }

/-- The call `p.Sound(sound)`. -/
def Payload.Sound (p : Payload) (sound : String) : Payload :=
  { p with sound := some sound }

/-- The call `p.Badge(b)`. -/
def Payload.Badge (p : Payload) (b : Int) : Payload :=
  { p with badge := some b }

/-- The call `p.ContentAvailable()`. -/
def Payload.ContentAvailable (p : Payload) : Payload :=
  { p with contentAvailable := true }

/-- The call `p.MutableContent()`. -/
def Payload.MutableContent (p : Payload) : Payload :=
  { p with mutableContent := true }

end apnspayload

/-! ## The generic push body (package api) -/

namespace api

/-- Modelled from the spec: the generated declaration is outside the source
files at hand. A localization key with its arguments. -/
structure Localizeable where
  LocKey : String := ""
  LocArgs : List String := []
deriving DecidableEq, Repr

/-- Modelled from the spec: the generated declaration is outside the source
files at hand. The title of an alerting push, in one of its two mutually
exclusive forms. -/
inductive AlertTitle where
  | LocAlertTitle (v : Localizeable)
  | SimpleAlertTitle (v : String)
deriving DecidableEq, Repr

/-- Modelled from the spec: the generated declaration is outside the source
files at hand. The body of an alerting push, in one of its two mutually
exclusive forms. -/
inductive AlertBody where
  | LocAlertBody (v : Localizeable)
  | SimpleAlertBody (v : String)
deriving DecidableEq, Repr

/-- The wrapper of an optional string: `pb2ans.go` reads its `Value`. -/
structure StringValue where
  Value : String
deriving DecidableEq, Repr

/-- Modelled from the spec: the generated declaration is outside the source
files at hand. An alerting push: title, body, badge count and an optional
category tag. -/
structure AlertingPush where
  AlertTitle : Option AlertTitle := none
  AlertBody : Option AlertBody := none
  Badge : Int := 0
  Category : Option StringValue := none
deriving DecidableEq, Repr

/-- The getter `GetLocAlertTitle`: the localized title, nil in any other case. -/
def AlertingPush.GetLocAlertTitle (x : AlertingPush) : Option Localizeable :=
  match x.AlertTitle with
  | some (.LocAlertTitle v) => some v
  | _ => none

/-- The getter `GetSimpleAlertTitle`: the plain title, empty in any other case. -/
def AlertingPush.GetSimpleAlertTitle (x : AlertingPush) : String :=
  match x.AlertTitle with
  | some (.SimpleAlertTitle v) => v
  | _ => ""

/-- The getter `GetLocAlertBody`: the localized body, nil in any other case. -/
def AlertingPush.GetLocAlertBody (x : AlertingPush) : Option Localizeable :=
  match x.AlertBody with
  | some (.LocAlertBody v) => some v
  | _ => none

/-- The getter `GetSimpleAlertBody`: the plain body, empty in any other case. -/
def AlertingPush.GetSimpleAlertBody (x : AlertingPush) : String :=
  match x.AlertBody with
  | some (.SimpleAlertBody v) => v
  | _ => ""

/-- The getter `GetBadge`. -/
def AlertingPush.GetBadge (x : AlertingPush) : Int := x.Badge

/-- Modelled from the spec: the declaration of the peer type enumeration is
outside the source files at hand; a peer type is an enumeration tag. -/
abbrev PeerType := Int

/-- Modelled from the spec: the generated declaration is outside the source
files at hand. A peer: id, type and string id. -/
structure Peer where
  Id : Int := 0
  Type_ : PeerType := 0
  StrId : String := ""
deriving DecidableEq, Repr

/-- Modelled from the spec: the generated declaration is outside the source
files at hand. An out-peer: id, type, access hash and string id. -/
structure OutPeer where
  Id : Int := 0
  Type_ : PeerType := 0
  AccessHash : Int := 0
  StrId : String := ""
deriving DecidableEq, Repr

/-- Modelled from the spec: the generated declaration is outside the source
files at hand. The merge hint of a VoIP push: a key and a boolean. -/
structure Merge where
  Key : String := ""
  Merge : Bool := false
deriving DecidableEq, Repr

/-- Modelled from the spec: the generated declaration is outside the source
files at hand. A VoIP push: call identifiers, attempt index, display name,
event-bus id, update type, disposal reason, video flag, token and endpoint
strings, and the optional peer, out-peer and merge. -/
structure VoipPush where
  CallId : Int := 0
  CallIdStr : String := ""
  AttemptIndex : Int := 0
  DisplayName : String := ""
  EventBusId : String := ""
  UpdateType : String := ""
  DisposalReason : String := ""
  Video : Bool := false
  Token : String := ""
  Endpoint : String := ""
  Peer : Option Peer := none
  OutPeer : Option OutPeer := none
  Merge : Option Merge := none
deriving DecidableEq, Repr

/-- A byte. -/
abbrev Byte := Fin 256

/-- Modelled from the spec: the generated declaration is outside the source
files at hand. An encrypted push: an optional public alerting push, a nonce
and the encrypted data. -/
structure EncryptedPush where
  PublicAlertingPush : Option AlertingPush := none
  Nonce : Int := 0
  EncryptedData : List Byte := []
deriving DecidableEq, Repr

/-- Modelled from the spec: the generated declaration is outside the source
files at hand. A silent push has no fields. -/
structure SilentPush where
deriving DecidableEq, Repr

/-- Modelled from the spec: the generated declaration is outside the source
files at hand. The tagged variant of a push body: exactly one case. -/
inductive Body where
  | VoipPush (v : VoipPush)
  | AlertingPush (v : AlertingPush)
  | EncryptedPush (v : EncryptedPush)
  | SilentPush (v : SilentPush)
deriving DecidableEq, Repr

/-- Modelled from the spec: the generated declaration is outside the source
files at hand. A push body: the variant (absent when no case is set), the
sequence number and the collapse key. -/
structure PushBody where
  Body : Option Body := none
  Seq : Int := 0
  CollapseKey : String := ""
deriving DecidableEq, Repr

/-- The getter `GetVoipPush`: nil unless the VoIP case is set. -/
def PushBody.GetVoipPush (x : PushBody) : Option VoipPush :=
  match x.Body with
  | some (.VoipPush v) => some v
  | _ => none

/-- The getter `GetAlertingPush`: nil unless the alerting case is set. -/
def PushBody.GetAlertingPush (x : PushBody) : Option AlertingPush :=
  match x.Body with
  | some (.AlertingPush v) => some v
  | _ => none

/-- The getter `GetEncryptedPush`: nil unless the encrypted case is set. -/
def PushBody.GetEncryptedPush (x : PushBody) : Option EncryptedPush :=
  match x.Body with
  | some (.EncryptedPush v) => some v
  | _ => none

/-- The getter `GetSilentPush`: nil unless the silent case is set. -/
def PushBody.GetSilentPush (x : PushBody) : Option SilentPush :=
  match x.Body with
  | some (.SilentPush v) => some v
  | _ => none

/-- The getter `GetSeq`. -/
def PushBody.GetSeq (x : PushBody) : Int := x.Seq

/-- The getter `GetCollapseKey`. -/
def PushBody.GetCollapseKey (x : PushBody) : String := x.CollapseKey

end api

/-! ## Time, base64 and the APNs request -/

/-- An instant, in nanoseconds since the zero time of Go. -/
abbrev Time := Int

namespace Time

/-- The duration `time.Minute`, in nanoseconds. -/
def Minute : Int := 60 * 1000000000

/-- The duration `time.Hour`, in nanoseconds. -/
def Hour : Int := 60 * Minute

/-- The method `t.Truncate(d)`: `t` rounded down to a multiple of `d` since
the zero time (`t` itself when `d` is not positive). -/
def Truncate (t : Time) (d : Int) : Time :=
  if d ≤ 0 then t else t - t.emod d

/-- The method `t.IsZero()`. -/
def IsZero (t : Time) : Bool := decide (t = 0)

/-- The method `t.Add(d)`. -/
def Add (t : Time) (d : Int) : Time := t + d

end Time

namespace base64

/-- The alphabet of the standard encoding. -/
def encodeStd : List Char :=
  "ABCDEFGHIJKLMNOPQRSTUVWXYZabcdefghijklmnopqrstuvwxyz0123456789+/".toList

/-- The character of a 6-bit value in the standard alphabet. -/
def encodeChar (n : Nat) : Char := encodeStd.getD (n % 64) 'A'

/-- The characters of the standard padded encoding: 3 bytes give 4
characters, a last group of 1 or 2 bytes is padded with `=`. -/
def encodeChars : List api.Byte → List Char
  | a :: b :: c :: rest =>
    let v := a.val * 65536 + b.val * 256 + c.val
    encodeChar (v / 262144) :: encodeChar (v / 4096) :: encodeChar (v / 64) :: encodeChar v
      :: encodeChars rest
  | [a, b] =>
    let v := a.val * 65536 + b.val * 256
    [encodeChar (v / 262144), encodeChar (v / 4096), encodeChar (v / 64), '=']
  | [a] =>
    let v := a.val * 65536
    [encodeChar (v / 262144), encodeChar (v / 4096), '=', '=']
  | [] => []

/-- The call `base64.StdEncoding.EncodeToString(src)`. -/
def EncodeToString (src : List api.Byte) : String := String.mk (encodeChars src)

end base64

namespace ans

/-- Modelled from the spec: the declaration of the request headers is outside
the source files at hand; `pb2ans.go` writes these three. A fresh value is the
zero value. -/
structure Headers where
  Expiration : Time := 0
  CollapseID : String := ""
  Topic : String := ""
deriving DecidableEq, Repr

/-- Modelled from the spec: the declaration of the APNs request is outside
the source files at hand: the destination token, the headers and the encoded
payload. A fresh value is the zero value. -/
structure Request where
  Token : String := ""
  Headers : Headers := {}
  Payload : List api.Byte := []
deriving DecidableEq, Repr

end ans

/-! ## pkg/conversion/pb2ans.go -/

namespace conversion

/-- What `pb2ans.go` takes from outside the file: the sentinel error
`ErrEmptyEncryptedPayload`, the functions `ErrorByIncomingMessage` and
`PeerTypeProtobufToMPS` of its package, the JSON encoder of the payload, and
the reading of the clock `time.Now()`. -/
structure Env where
  ErrEmptyEncryptedPayload : GoError
  ErrorByIncomingMessage : api.PushBody → Option GoError
  PeerTypeProtobufToMPS : api.PeerType → Int
  jsonEncode : apnspayload.Payload → Except GoError (List api.Byte)
  now : Time

/-- The call `strconv.Itoa(i)`: the decimal string of an integer. -/
def Itoa (i : Int) : String := toString i

/-- The call `strconv.FormatBool(b)`. -/
def FormatBool (b : Bool) : String := if b then "true" else "false"

/-- The function `setAlertPropsAns` of pb2ans.go lines 163-190. -/
def setAlertPropsAns (payload : apnspayload.Payload) (alerting : api.AlertingPush)
    (sound : Option String) : apnspayload.Payload :=
  let payload :=
    match alerting.GetLocAlertTitle with
    | some locAlert =>
      (payload.AlertTitleLocKey locAlert.LocKey).AlertTitleLocArgs locAlert.LocArgs
    | none =>
      let simpleTitle := alerting.GetSimpleAlertTitle
      if simpleTitle.length > 0 then payload.AlertTitle simpleTitle else payload
  let payload :=
    match alerting.GetLocAlertBody with
    | some locBody => (payload.AlertLocKey locBody.LocKey).AlertLocArgs locBody.LocArgs
    | none =>
      let simpleBody := alerting.GetSimpleAlertBody
      if simpleBody.length > 0 then payload.AlertBody simpleBody else payload
  let payload :=
    match sound with
    | some s => if s.length > 0 then payload.Sound s else payload
    | none => payload
  let badge := alerting.GetBadge
  if badge > 0 then payload.Badge badge else payload

/-- The function `setVoIPPayloadAns` of pb2ans.go lines 72-117: the payload it
leaves and the error it returns. -/
def setVoIPPayloadAns (env : Env) (payload : apnspayload.Payload) (src : api.VoipPush)
    (supportsVoIP : Bool) : apnspayload.Payload × Option GoError :=
  if !supportsVoIP then
    (payload, some ⟨"attempted voip-push using non-voip certificate"⟩)
  else
    let payload := payload.Custom "callId" (.str (Itoa src.CallId))
    let payload := payload.Custom "callIdStr" (.str src.CallIdStr)
    let payload := payload.Custom "attemptIndex" (.int src.AttemptIndex)
    let payload := payload.Custom "displayName" (.str src.DisplayName)
    let payload := payload.Custom "eventBusId" (.str src.EventBusId)
    let payload := payload.Custom "updateType" (.str src.UpdateType)
    let payload := payload.Custom "disposalReason" (.str src.DisposalReason)
    let payload := payload.Custom "video" (.bool src.Video)
    let payload := payload.Custom "token" (.str src.Token)
    let payload := payload.Custom "endpoint" (.str src.Endpoint)
    let payload :=
      match src.Peer with
      | some peer =>
        payload.Custom "peer" (.strMap
          [("id", Itoa peer.Id),
           ("type", Itoa (env.PeerTypeProtobufToMPS peer.Type_)),
           ("strId", peer.StrId)])
      | none => payload
    let payload :=
      match src.OutPeer with
      | some outPeer =>
        payload.Custom "outPeer" (.strMap
          [("id", Itoa outPeer.Id),
           ("type", Itoa (env.PeerTypeProtobufToMPS outPeer.Type_)),
           ("accessHash", Itoa outPeer.AccessHash),
           ("strId", outPeer.StrId)])
      | none => payload
    let payload :=
      match src.Merge with
      | some merge =>
        payload.Custom "merge" (.strMap
          [("key", merge.Key), ("merge", FormatBool merge.Merge)])
      | none => payload
    (payload, none)

/-- The function `setAlertingPayloadAns` of pb2ans.go lines 119-139. -/
def setAlertingPayloadAns (payload : apnspayload.Payload) (src : api.AlertingPush)
    (sound : Option String) (allowAlerts : Bool) : apnspayload.Payload :=
  if allowAlerts then
    let payload := setAlertPropsAns payload src sound
    let payload := payload.MutableContent
    match src.Category with
    | some category => payload.Custom "category" (.str category.Value)
    | none => payload
  else
    -- alerting pushes are disabled, sending silent instead
    let badge := src.GetBadge
    let payload := if badge > 0 then payload.Badge badge else payload
    let payload := payload.ContentAvailable
    payload.Sound ""

/-- The function `setEncryptedPayload` of pb2ans.go lines 141-161: the payload
it leaves and the error it returns. -/
def setEncryptedPayload (env : Env) (payload : apnspayload.Payload) (src : api.EncryptedPush)
    (sound : Option String) : apnspayload.Payload × Option GoError :=
  let payload :=
    match src.PublicAlertingPush with
    | some pub => setAlertPropsAns payload pub sound
    | none => payload
  let encryptedData := src.EncryptedData
  if encryptedData.length = 0 then
    (payload, some env.ErrEmptyEncryptedPayload)
  else
    let userInfo : List (String × String) :=
      [("nonce", Itoa src.Nonce),
       ("encrypted_data", base64.EncodeToString encryptedData)]
    let payload := payload.MutableContent
    let payload := payload.Custom "user_info" (.strMap userInfo)
    (payload, none)

/-- The variant branch of `RequestPbToAns`, pb2ans.go lines 23-40: `none` is
the early return of the silent case, otherwise the payload left by the branch
and its error. -/
def variantBranch (env : Env) (inp : api.PushBody) (supportsVoIP allowAlerts : Bool)
    (sound : Option String) : Option (apnspayload.Payload × Option GoError) :=
  let payload := apnspayload.NewPayload
  match inp.GetVoipPush with
  | some voip => some (setVoIPPayloadAns env payload voip supportsVoIP)
  | none =>
    match inp.GetAlertingPush with
    | some alerting => some (setAlertingPayloadAns payload alerting sound allowAlerts, none)
    | none =>
      match inp.GetEncryptedPush with
      | some encryped => some (setEncryptedPayload env payload encryped sound)
      | none =>
        match inp.GetSilentPush with
        | some _ => none -- ignoring
        | none => some (payload, env.ErrorByIncomingMessage inp)

/-- The function `RequestPbToAns` of pb2ans.go lines 16-70: the request it
returns (nil is `none`) and its error. -/
def RequestPbToAns (env : Env) (inp : api.PushBody) (supportsVoIP allowAlerts : Bool)
    (topic sound : Option String) : Option ans.Request × Option GoError :=
  let out : ans.Request := {}
  match variantBranch env inp supportsVoIP allowAlerts sound with
  | none => (none, none)
  | some (_, some err) => (none, some err)
  | some (payload, none) =>
    let seq := inp.GetSeq
    let payload := if seq > 0 then payload.Custom "seq" (.int seq) else payload
    match env.jsonEncode payload with
    | .error err => (none, some err)
    | .ok buf =>
      let out : ans.Request :=
        if Time.IsZero (Time.Truncate out.Headers.Expiration Time.Hour) then
          { out with Headers := { out.Headers with
              Expiration := Time.Add env.now (20 * Time.Minute) } }
        else out
      let id := inp.GetCollapseKey
      let out : ans.Request :=
        if id != "" then { out with Headers := { out.Headers with CollapseID := id } }
        else out
      let out : ans.Request :=
        match topic with
        | some t =>
          if t != "" then { out with Headers := { out.Headers with Topic := t } } else out
        | none => out
      let out : ans.Request := { out with Payload := buf }
      (some out, none)

end conversion

/-! ## The converter binding and concrete inputs -/

namespace api2ans

/-- The capability context a converter is built with. -/
structure Capability where
  supportsVoIP : Bool
  allowAlerts : Bool
  topic : Option String
  sound : Option String

/-- Modelled from the spec: the converter of package api2ans, which binds
`RequestPbToAns` to the capability context, is outside the source files at
hand. `Convert` returns the conversion error if there is one; on success it
fills the notification object with the request built, and in the silent case
it leaves the object as it is and returns success rather than an error. -/
def NewRequestConverter {World : Type} (env : conversion.Env) (cap : Capability) :
    worker.IRequestConverter api.PushBody ans.Request World :=
  { Convert := fun payload out world =>
      match conversion.RequestPbToAns env payload cap.supportsVoIP cap.allowAlerts
          cap.topic cap.sound with
      | (_, some err) => { err := some err, out := out, world := world }
      | (some req, none) => { err := none, out := req, world := world }
      | (none, none) => { err := none, out := out, world := world } }

end api2ans

namespace Examples

open worker

/-- A converter that appends the payload to the object and returns `err`. -/
def converterOf (err : Option GoError) : IRequestConverter String String (List String) :=
  { Convert := fun payload out world => { err := err, out := out ++ payload, world := world } }

/-- A send function that fails on the empty token, stamps the token on the
object and logs the token in the world. -/
def sendLog : FnSendNotification String (List String) Unit :=
  fun _ token out world =>
    { err := if token = "" then some ⟨"400 MissingDeviceToken"⟩ else none
      out := out ++ "/" ++ token
      world := world ++ [token] }

/-- A worker over these collaborators. -/
def workerOf (nopMode : Bool) (err : Option GoError) :
    Worker String String (List String) Unit :=
  { projectID := "proj"
    kind := 0
    nopMode := nopMode
    threads := ⟨1, 1⟩
    reqConverter := converterOf err
    fnNewNotification := fun world => ("", world)
    fnSendNotification := sendLog }

/-- A request with three devices, one of them twice. -/
def request3 : Request String := { Devices := ["t1", "", "t1"], Payload := "hello" }

/-- An environment of the conversion: the encoder here writes one byte, the
number of custom fields. -/
def env : conversion.Env :=
  { ErrEmptyEncryptedPayload := ⟨"empty encrypted payload"⟩
    ErrorByIncomingMessage := fun _ => some ⟨"unknown message kind"⟩
    PeerTypeProtobufToMPS := fun t => t
    jsonEncode := fun p => .ok [Fin.ofNat p.custom.length]
    now := 1000 }

/-- An APNs-style worker: the converter bound to `RequestPbToAns`, the factory
of empty requests, and a send function that sets the token of the request and
logs it. -/
def apnsWorker : Worker api.PushBody ans.Request (List String) Unit :=
  { projectID := "apns"
    kind := 0
    nopMode := false
    threads := ⟨1, 1⟩
    reqConverter := api2ans.NewRequestConverter env
      { supportsVoIP := true, allowAlerts := true, topic := none, sound := none }
    fnNewNotification := fun world => ({}, world)
    fnSendNotification := fun _ token out world =>
      { err := none, out := { out with Token := token }, world := world ++ [token] } }

/-- A request carrying a silent push for two devices. -/
def silentRequest : Request api.PushBody :=
  { Devices := ["d1", "d2"], Payload := { Body := some (.SilentPush {}) } }

end Examples

/-! ## The permit pool at run time -/

namespace worker

/-- The state of a worker at run time: the permit channel, the dispatch tasks
started and not yet ended (each with the context and request of its `Send`),
and the world. -/
structure Engine (P World Ctx : Type) where
  threads : Chan
  inFlight : List (Ctx × Request P)
  world : World

/-- What can happen to a running worker: a call of `Send` gets past the
receive of worker.go line 77 and starts its dispatch task (line 79), or the
`i`-th task in flight runs to its end. -/
inductive Event (P Ctx : Type) where
  | acquire (ctx : Ctx) (req : Request P)
  | finish (i : Nat)

/-- One step of a running worker; `none` when the step cannot be taken now: a
`Send` with no permit to receive blocks at line 77, and a task gives its permit
back by the deferred send of line 80. The fan-out of a task is taken as a whole
at its end. -/
def Worker.step {P Out World Ctx : Type} (w : Worker P Out World Ctx)
    (s : Engine P World Ctx) : Event P Ctx → Option (Engine P World Ctx)
  | .acquire ctx req =>
    match s.threads.recv with
    | none => none
    | some threads =>
      some { threads := threads
             inFlight := s.inFlight ++ [(ctx, req)]
             world := s.world }
  | .finish i =>
    match s.inFlight[i]? with
    | none => none
    | some task =>
      let r := w.Send task.1 task.2 s.world
      if r.released then
        match s.threads.send with
        | none => none
        | some threads =>
          some { threads := threads
                 inFlight := s.inFlight.eraseIdx i
                 world := r.world }
      else
        some { threads := s.threads
               inFlight := s.inFlight.eraseIdx i
               world := r.world }

/-- A sequence of steps, each one taken from the state the previous one left. -/
def Worker.run {P Out World Ctx : Type} (w : Worker P Out World Ctx) :
    List (Event P Ctx) → Engine P World Ctx → Option (Engine P World Ctx)
  | [], s => some s
  | e :: es, s => (w.step s e).bind (w.run es)

/-- The state of a worker as `New` returns it: the pool as filled, no task. -/
def Worker.start {P Out World Ctx : Type} (w : Worker P Out World Ctx) (world : World) :
    Engine P World Ctx :=
  { threads := w.threads
    inFlight := []
    world := world }

end worker

/-! ## The standard base64 decoder -/

namespace base64

/-- The 6-bit value of a character of the standard alphabet. -/
def decodeChar (c : Char) : Option Nat :=
  if encodeStd.indexOf c < 64 then some (encodeStd.indexOf c) else none

/-- The bytes of a padded standard encoding, group of 4 characters by group
of 4; `none` when the input is not one. -/
def decodeChars : List Char → Option (List api.Byte)
  | [] => some []
  | c1 :: c2 :: c3 :: c4 :: rest =>
    match decodeChar c1, decodeChar c2 with
    | some a, some b =>
      if c3 = '=' then
        if c4 = '=' ∧ rest = [] then some [Fin.ofNat ((a * 64 + b) / 16)] else none
      else
        match decodeChar c3 with
        | none => none
        | some c =>
          if c4 = '=' then
            if rest = [] then
              some [Fin.ofNat ((a * 4096 + b * 64 + c) / 1024),
                    Fin.ofNat ((a * 4096 + b * 64 + c) / 4)]
            else none
          else
            match decodeChar c4 with
            | none => none
            | some d =>
              (decodeChars rest).map (fun tl =>
                Fin.ofNat ((a * 262144 + b * 4096 + c * 64 + d) / 65536) ::
                Fin.ofNat ((a * 262144 + b * 4096 + c * 64 + d) / 256) ::
                Fin.ofNat (a * 262144 + b * 4096 + c * 64 + d) :: tl)
    | _, _ => none
  | _ => none

/-- The call `base64.StdEncoding.DecodeString(s)`. -/
def DecodeString (s : String) : Option (List api.Byte) := decodeChars s.data

end base64

/-! ## pkg/worker/ans/worker.go -/

namespace workerans

/-- A value of type `interface{}` handed to the adapter: a pointer to an APNs
request, or a value of any other type. -/
inductive Any where
  | ansRequest (req : ans.Request)
  | other (typeName : String)
deriving DecidableEq, Repr

/-- Modelled from the spec: the declaration of the provider answer is outside
the source files at hand; `sendNotification` reads its status code and
reason. -/
structure Answer where
  StatusCode : Int
  Reason : String
deriving DecidableEq, Repr

/-- Modelled from the spec: the provider client is outside the source files at
hand. `Send(ctx, req)` performs the transport call: it returns an answer or a
transport error, reads the request and acts on the world. -/
structure Client (World Ctx : Type) where
  Send : Ctx → ans.Request → World → Except GoError Answer × World

/-- The struct `Worker` of ans/worker.go lines 17-20 (the embedded generic
worker is not read by the two methods below). -/
structure Worker (World Ctx : Type) where
  provider : Client World Ctx

/-- What a call of `sendNotification` has done: the error returned, the object
`out` as it leaves it, the requests it handed to the provider in order, and
the world. -/
structure SendNotificationResult (World : Type) where
  err : Option GoError
  out : Any
  sent : List ans.Request
  world : World

/-- The method `newNotification` of ans/worker.go lines 65-67. -/
def Worker.newNotification {World Ctx : Type} (_w : Worker World Ctx) : Any :=
  .ansRequest {}

/-- The method `sendNotification` of ans/worker.go lines 69-87. -/
def Worker.sendNotification {World Ctx : Type} (w : Worker World Ctx) (ctx : Ctx)
    (token : String) (out : Any) (world : World) : SendNotificationResult World :=
  match out with
  | .other _ =>
    { err := some worker.ErrInvalidOutDataType, out := out, sent := [], world := world }
  | .ansRequest req =>
    let req : ans.Request := { req with Token := token }
    let r := w.provider.Send ctx req world
    match r.1 with
    | .error err =>
      { err := some err, out := .ansRequest req, sent := [req], world := r.2 }
    | .ok answer =>
      if answer.StatusCode ≠ 200 then
        { err := some ⟨conversion.Itoa answer.StatusCode ++ " " ++ answer.Reason⟩
          out := .ansRequest req
          sent := [req]
          world := r.2 }
      else
        { err := none, out := .ansRequest req, sent := [req], world := r.2 }

end workerans

namespace Examples

open worker

/-- A provider that counts its calls: it cannot reach the token "down",
rejects the token "bad" with status 400 and accepts any other. -/
def provider : workerans.Client Nat Unit :=
  { Send := fun _ req world =>
      (if req.Token = "down" then .error ⟨"connection refused"⟩
       else if req.Token = "bad" then .ok ⟨400, "BadDeviceToken"⟩
       else .ok ⟨200, ""⟩, world + 1) }

/-- The APNs adapter over that provider. -/
def ansWorker : workerans.Worker Nat Unit := { provider := provider }

/-- A request as the conversion leaves it. -/
def builtRequest : ans.Request :=
  { Headers := { Expiration := 1200000001000, CollapseID := "c", Topic := "app" }
    Payload := [1, 2, 3] }

/-- A worker as `New` builds it with three threads. -/
def pooledWorker : Worker String String (List String) Unit :=
  { workerOf false none with threads := ⟨3, 3⟩ }

/-- A configuration asking for three threads. -/
def config3 : Config := { ProjectID := "proj", NopMode := false, CountThreads := 3 }

end Examples

/-- The token of a call of the send function. -/
def worker.Call.sendToken {P Out World Ctx : Type} : worker.Call P Out World Ctx → Option String
  | .send _ token _ _ => some token
  | _ => none

/-! ## Properties of the dispatch engine -/

namespace worker

variable {P Out World Ctx : Type}

theorem sendLoop_length (w : Worker P Out World Ctx) (ctx : Ctx) (err : Option GoError)
    (devices : List String) (out : Out) (world : World) :
    (w.sendLoop ctx err devices out world).responses.length = devices.length := by
  induction devices generalizing out world with
  | nil => simp [Worker.sendLoop]
  | cons token rest ih =>
    cases err with
    | some e => simp [Worker.sendLoop, ih]
    | none =>
      by_cases hn : w.nopMode = true
      · simp [Worker.sendLoop, hn, ih]
      · simp [Worker.sendLoop, hn, ih]

theorem sendLoop_tokens (w : Worker P Out World Ctx) (ctx : Ctx) (err : Option GoError)
    (devices : List String) (out : Out) (world : World) :
    (w.sendLoop ctx err devices out world).responses.map (fun r => r.DeviceToken)
      = devices := by
  induction devices generalizing out world with
  | nil => simp [Worker.sendLoop]
  | cons token rest ih =>
    cases err with
    | some e => simp [Worker.sendLoop, ih]
    | none =>
      by_cases hn : w.nopMode = true
      · simp [Worker.sendLoop, hn, ih]
      · simp only [Worker.sendLoop, hn, Bool.false_eq_true, if_false, List.map_cons, ih]
        cases (w.fnSendNotification ctx token out world).err <;> rfl

theorem sendLoop_projectID (w : Worker P Out World Ctx) (ctx : Ctx) (err : Option GoError)
    (devices : List String) (out : Out) (world : World) :
    ∀ resp ∈ (w.sendLoop ctx err devices out world).responses,
      resp.ProjectID = w.projectID := by
  induction devices generalizing out world with
  | nil => simp [Worker.sendLoop]
  | cons token rest ih =>
    cases err with
    | some e =>
      simp only [Worker.sendLoop, List.mem_cons]
      rintro resp (h | h)
      · rw [h]
      · exact ih _ _ resp h
    | none =>
      by_cases hn : w.nopMode = true
      · simp only [Worker.sendLoop, hn, if_true, List.mem_cons]
        rintro resp (h | h)
        · rw [h]
        · exact ih _ _ resp h
      · simp only [Worker.sendLoop, hn, Bool.false_eq_true, if_false, List.mem_cons]
        rintro resp (h | h)
        · rw [h]
          cases (w.fnSendNotification ctx token out world).err <;> rfl
        · exact ih _ _ resp h

theorem sendLoop_convert_error (w : Worker P Out World Ctx) (ctx : Ctx) (e : GoError)
    (devices : List String) (out : Out) (world : World) :
    (w.sendLoop ctx (some e) devices out world).calls = [] ∧
    (w.sendLoop ctx (some e) devices out world).world = world ∧
    ∀ resp ∈ (w.sendLoop ctx (some e) devices out world).responses,
      resp.Error = some e := by
  induction devices generalizing out world with
  | nil => simp [Worker.sendLoop]
  | cons token rest ih =>
    obtain ⟨h1, h2, h3⟩ := ih out world
    refine ⟨by simpa [Worker.sendLoop] using h1, by simpa [Worker.sendLoop] using h2, ?_⟩
    simp only [Worker.sendLoop, List.mem_cons]
    rintro resp (h | h)
    · rw [h]
    · exact h3 resp h

theorem sendLoop_nopMode (w : Worker P Out World Ctx) (ctx : Ctx) (hn : w.nopMode = true)
    (devices : List String) (out : Out) (world : World) :
    (w.sendLoop ctx none devices out world).calls = [] ∧
    (w.sendLoop ctx none devices out world).world = world ∧
    ∀ resp ∈ (w.sendLoop ctx none devices out world).responses, resp.Error = none := by
  induction devices generalizing out world with
  | nil => simp [Worker.sendLoop]
  | cons token rest ih =>
    obtain ⟨h1, h2, h3⟩ := ih out world
    refine ⟨by simpa [Worker.sendLoop, hn] using h1, by simpa [Worker.sendLoop, hn] using h2, ?_⟩
    simp only [Worker.sendLoop, hn, if_true, List.mem_cons]
    rintro resp (h | h)
    · rw [h]
    · exact h3 resp h

theorem sendLoop_cons_send (w : Worker P Out World Ctx) (ctx : Ctx) (hn : w.nopMode = false)
    (token : String) (rest : List String) (out : Out) (world : World) :
    w.sendLoop ctx none (token :: rest) out world =
      { responses :=
          { ProjectID := w.projectID, DeviceToken := token,
            Error := (w.fnSendNotification ctx token out world).err } ::
          (w.sendLoop ctx none rest (w.fnSendNotification ctx token out world).out
            (w.fnSendNotification ctx token out world).world).responses
        calls := Call.send ctx token out world ::
          (w.sendLoop ctx none rest (w.fnSendNotification ctx token out world).out
            (w.fnSendNotification ctx token out world).world).calls
        out := (w.sendLoop ctx none rest (w.fnSendNotification ctx token out world).out
            (w.fnSendNotification ctx token out world).world).out
        world := (w.sendLoop ctx none rest (w.fnSendNotification ctx token out world).out
            (w.fnSendNotification ctx token out world).world).world } := by
  simp only [Worker.sendLoop, hn, Bool.false_eq_true, if_false]
  cases (w.fnSendNotification ctx token out world).err <;> rfl

theorem sendLoop_send (w : Worker P Out World Ctx) (ctx : Ctx) (hn : w.nopMode = false)
    (devices : List String) (out : Out) (world : World) :
    (w.sendLoop ctx none devices out world).calls.length = devices.length ∧
    ∀ (i : Nat) (t : String), devices[i]? = some t →
      ∃ (o : Out) (wd : World),
        (w.sendLoop ctx none devices out world).calls[i]? = some (Call.send ctx t o wd) ∧
        (w.sendLoop ctx none devices out world).responses[i]? =
          some { ProjectID := w.projectID, DeviceToken := t,
                 Error := (w.fnSendNotification ctx t o wd).err } ∧
        (i = 0 → o = out ∧ wd = world) ∧
        ∀ t2 : String, devices[i + 1]? = some t2 →
          (w.sendLoop ctx none devices out world).calls[i + 1]? =
            some (Call.send ctx t2 (w.fnSendNotification ctx t o wd).out
              (w.fnSendNotification ctx t o wd).world) := by
  induction devices generalizing out world with
  | nil => simp [Worker.sendLoop]
  | cons token rest ih =>
    rw [sendLoop_cons_send w ctx hn]
    obtain ⟨hlen, hidx⟩ := ih (w.fnSendNotification ctx token out world).out
      (w.fnSendNotification ctx token out world).world
    refine ⟨by simp [hlen], ?_⟩
    intro i t hi
    cases i with
    | zero =>
      simp only [List.getElem?_cons_zero, Option.some.injEq] at hi
      subst hi
      refine ⟨out, world, by simp, by simp, fun _ => ⟨rfl, rfl⟩, ?_⟩
      intro t2 h2
      simp only [List.getElem?_cons_succ] at h2 ⊢
      obtain ⟨o, wd, hc, _, h0, _⟩ := hidx 0 t2 h2
      obtain ⟨ho, hw⟩ := h0 rfl
      rw [hc, ho, hw]
    | succ j =>
      simp only [List.getElem?_cons_succ] at hi ⊢
      obtain ⟨o, wd, hc, hr, _, hnext⟩ := hidx j t hi
      exact ⟨o, wd, hc, hr, fun h => absurd h (Nat.succ_ne_zero j), hnext⟩

theorem sendLoop_sendTokens (w : Worker P Out World Ctx) (ctx : Ctx) (hn : w.nopMode = false)
    (devices : List String) (out : Out) (world : World) :
    (w.sendLoop ctx none devices out world).calls.filterMap Call.sendToken = devices ∧
    ∀ c ∈ (w.sendLoop ctx none devices out world).calls, c.isSend = true := by
  induction devices generalizing out world with
  | nil => simp [Worker.sendLoop]
  | cons token rest ih =>
    rw [sendLoop_cons_send w ctx hn]
    obtain ⟨h1, h2⟩ := ih (w.fnSendNotification ctx token out world).out
      (w.fnSendNotification ctx token out world).world
    refine ⟨by simp [Call.sendToken, h1], ?_⟩
    intro c hc
    simp only [List.mem_cons] at hc
    rcases hc with h | h
    · rw [h]; rfl
    · exact h2 c h

/-- The run of `Send` on a request with at least one device. -/
theorem Send_of_devices (w : Worker P Out World Ctx) (ctx : Ctx) (req : Request P)
    (world : World) (hN : 1 ≤ req.Devices.length) :
    w.Send ctx req world =
      { responses := (w.sendLoop ctx
          (w.reqConverter.Convert req.Payload (w.fnNewNotification world).1
            (w.fnNewNotification world).2).err req.Devices
          (w.reqConverter.Convert req.Payload (w.fnNewNotification world).1
            (w.fnNewNotification world).2).out
          (w.reqConverter.Convert req.Payload (w.fnNewNotification world).1
            (w.fnNewNotification world).2).world).responses
        closed := true
        released := true
        calls := Call.newNotification world ::
          Call.convert req.Payload (w.fnNewNotification world).1
            (w.fnNewNotification world).2 ::
          (w.sendLoop ctx
            (w.reqConverter.Convert req.Payload (w.fnNewNotification world).1
              (w.fnNewNotification world).2).err req.Devices
            (w.reqConverter.Convert req.Payload (w.fnNewNotification world).1
              (w.fnNewNotification world).2).out
            (w.reqConverter.Convert req.Payload (w.fnNewNotification world).1
              (w.fnNewNotification world).2).world).calls
        world := (w.sendLoop ctx
          (w.reqConverter.Convert req.Payload (w.fnNewNotification world).1
            (w.fnNewNotification world).2).err req.Devices
          (w.reqConverter.Convert req.Payload (w.fnNewNotification world).1
            (w.fnNewNotification world).2).out
          (w.reqConverter.Convert req.Payload (w.fnNewNotification world).1
            (w.fnNewNotification world).2).world).world } := by
  have h0 : ¬ req.Devices.length = 0 := by omega
  simp only [Worker.Send, h0, if_false]

/-- C1. For every worker and every request with at least one device token
(duplicates allowed) for which `Convert` returns no error, the stream produced
by `Send` holds exactly as many responses as there are tokens, the device
tokens of the responses are the tokens of the request in the same order, every
response carries the project id of the worker, and the stream is closed. -/
theorem C1_Send_one_response_per_device (w : Worker P Out World Ctx) (ctx : Ctx)
    (req : Request P) (world : World) (hN : 1 ≤ req.Devices.length)
    (hConv : (w.reqConverter.Convert req.Payload (w.fnNewNotification world).1
      (w.fnNewNotification world).2).err = none) :
    (w.Send ctx req world).responses.length = req.Devices.length ∧
    (w.Send ctx req world).responses.map (fun r => r.DeviceToken) = req.Devices ∧
    (∀ (i : Nat) (t : String), req.Devices[i]? = some t →
      ∃ resp, (w.Send ctx req world).responses[i]? = some resp ∧
        resp.DeviceToken = t ∧ resp.ProjectID = w.projectID) ∧
    (w.Send ctx req world).closed = true := by
  rw [Send_of_devices w ctx req world hN, hConv]
  have hlen := sendLoop_length w ctx none req.Devices
    (w.reqConverter.Convert req.Payload (w.fnNewNotification world).1
      (w.fnNewNotification world).2).out
    (w.reqConverter.Convert req.Payload (w.fnNewNotification world).1
      (w.fnNewNotification world).2).world
  have htok := sendLoop_tokens w ctx none req.Devices
    (w.reqConverter.Convert req.Payload (w.fnNewNotification world).1
      (w.fnNewNotification world).2).out
    (w.reqConverter.Convert req.Payload (w.fnNewNotification world).1
      (w.fnNewNotification world).2).world
  have hpid := sendLoop_projectID w ctx none req.Devices
    (w.reqConverter.Convert req.Payload (w.fnNewNotification world).1
      (w.fnNewNotification world).2).out
    (w.reqConverter.Convert req.Payload (w.fnNewNotification world).1
      (w.fnNewNotification world).2).world
  refine ⟨hlen, htok, ?_, rfl⟩
  intro i t hi
  have hi2 : i < req.Devices.length := (List.getElem?_eq_some.mp hi).1
  have hlt : i < (w.sendLoop ctx none req.Devices
      (w.reqConverter.Convert req.Payload (w.fnNewNotification world).1
        (w.fnNewNotification world).2).out
      (w.reqConverter.Convert req.Payload (w.fnNewNotification world).1
        (w.fnNewNotification world).2).world).responses.length := by
    rw [hlen]; exact hi2
  refine ⟨_, List.getElem?_eq_getElem hlt, ?_, hpid _ (List.getElem_mem _)⟩
  have h3 := congrArg (fun l => l[i]?) htok
  simp only [List.getElem?_map, List.getElem?_eq_getElem hlt, Option.map_some, hi] at h3
  exact Option.some.inj h3

/-- A concrete instance of C1: three devices, one of them twice, conversion
succeeding. -/
theorem C1_witness :
    1 ≤ Examples.request3.Devices.length ∧
    ((Examples.workerOf false none).Send () Examples.request3 []).responses.map
      (fun r => r.DeviceToken) = ["t1", "", "t1"] ∧
    ((Examples.workerOf false none).Send () Examples.request3 []).closed = true :=
  ⟨by decide,
   (C1_Send_one_response_per_device (Examples.workerOf false none) () Examples.request3 []
      (by decide) rfl).2.1,
   (C1_Send_one_response_per_device (Examples.workerOf false none) () Examples.request3 []
      (by decide) rfl).2.2.2⟩

/-- C2. For every worker (whatever its nopMode) and every request with an
empty device list, `Send` emits exactly one response, with error
`ErrInvalidDeviceToken`, an empty device token and the project id of the
worker; it calls neither the notification factory, nor `Convert`, nor the send
function; the stream is closed and the world is left as it was. -/
theorem C2_Send_empty_devices (w : Worker P Out World Ctx) (ctx : Ctx) (payload : P)
    (world : World) :
    (w.Send ctx { Devices := [], Payload := payload } world).responses =
      [{ ProjectID := w.projectID, DeviceToken := "", Error := some ErrInvalidDeviceToken }] ∧
    (w.Send ctx { Devices := [], Payload := payload } world).calls = [] ∧
    (w.Send ctx { Devices := [], Payload := payload } world).closed = true ∧
    (w.Send ctx { Devices := [], Payload := payload } world).released = true ∧
    (w.Send ctx { Devices := [], Payload := payload } world).world = world := by
  simp [Worker.Send]

/-- C3. For every request with at least one device for which `Convert` returns
an error `e`, `Send` emits one response per device in device order, every
response carries exactly the error `e`, and the only collaborator calls are the
one of the factory and the one of `Convert`: the send function is never called
(whatever nopMode is). -/
theorem C3_Send_convert_error (w : Worker P Out World Ctx) (ctx : Ctx)
    (req : Request P) (world : World) (e : GoError) (hN : 1 ≤ req.Devices.length)
    (hConv : (w.reqConverter.Convert req.Payload (w.fnNewNotification world).1
      (w.fnNewNotification world).2).err = some e) :
    (w.Send ctx req world).responses.length = req.Devices.length ∧
    (w.Send ctx req world).responses.map (fun r => r.DeviceToken) = req.Devices ∧
    (∀ resp ∈ (w.Send ctx req world).responses, resp.Error = some e) ∧
    (w.Send ctx req world).calls =
      [Call.newNotification world,
       Call.convert req.Payload (w.fnNewNotification world).1
         (w.fnNewNotification world).2] ∧
    (∀ c ∈ (w.Send ctx req world).calls, c.isSend = false) := by
  rw [Send_of_devices w ctx req world hN, hConv]
  obtain ⟨h1, _, h3⟩ := sendLoop_convert_error w ctx e req.Devices
    (w.reqConverter.Convert req.Payload (w.fnNewNotification world).1
      (w.fnNewNotification world).2).out
    (w.reqConverter.Convert req.Payload (w.fnNewNotification world).1
      (w.fnNewNotification world).2).world
  refine ⟨sendLoop_length _ _ _ _ _ _, sendLoop_tokens _ _ _ _ _ _, h3, ?_, ?_⟩
  · simp only [h1]
  · simp only [h1, List.mem_cons, List.mem_nil_iff, or_false]
    rintro c (h | h) <;> rw [h] <;> rfl

/-- A concrete instance of C3: three devices and a converter that fails. -/
theorem C3_witness :
    1 ≤ Examples.request3.Devices.length ∧
    (∀ resp ∈ ((Examples.workerOf false (some ⟨"bad payload"⟩)).Send ()
        Examples.request3 []).responses, resp.Error = some ⟨"bad payload"⟩) ∧
    (∀ c ∈ ((Examples.workerOf false (some ⟨"bad payload"⟩)).Send ()
        Examples.request3 []).calls, c.isSend = false) :=
  ⟨by decide,
   (C3_Send_convert_error (Examples.workerOf false (some ⟨"bad payload"⟩)) ()
      Examples.request3 [] ⟨"bad payload"⟩ (by decide) rfl).2.2.1,
   (C3_Send_convert_error (Examples.workerOf false (some ⟨"bad payload"⟩)) ()
      Examples.request3 [] ⟨"bad payload"⟩ (by decide) rfl).2.2.2.2⟩

/-- C4. For every worker with nopMode set and every request with at least one
device whose conversion succeeds, `Send` emits one response per device, in
device order, all with a nil error, and the only collaborator calls are the one
of the factory and the one of `Convert`: the send function is never called,
whatever it would have returned. -/
theorem C4_Send_nopMode (w : Worker P Out World Ctx) (ctx : Ctx)
    (req : Request P) (world : World) (hNop : w.nopMode = true)
    (hN : 1 ≤ req.Devices.length)
    (hConv : (w.reqConverter.Convert req.Payload (w.fnNewNotification world).1
      (w.fnNewNotification world).2).err = none) :
    (w.Send ctx req world).responses.length = req.Devices.length ∧
    (w.Send ctx req world).responses.map (fun r => r.DeviceToken) = req.Devices ∧
    (∀ resp ∈ (w.Send ctx req world).responses, resp.Error = none) ∧
    (w.Send ctx req world).calls =
      [Call.newNotification world,
       Call.convert req.Payload (w.fnNewNotification world).1
         (w.fnNewNotification world).2] ∧
    (∀ c ∈ (w.Send ctx req world).calls, c.isSend = false) := by
  rw [Send_of_devices w ctx req world hN, hConv]
  obtain ⟨h1, _, h3⟩ := sendLoop_nopMode w ctx hNop req.Devices
    (w.reqConverter.Convert req.Payload (w.fnNewNotification world).1
      (w.fnNewNotification world).2).out
    (w.reqConverter.Convert req.Payload (w.fnNewNotification world).1
      (w.fnNewNotification world).2).world
  refine ⟨sendLoop_length _ _ _ _ _ _, sendLoop_tokens _ _ _ _ _ _, h3, ?_, ?_⟩
  · simp only [h1]
  · simp only [h1, List.mem_cons, List.mem_nil_iff, or_false]
    rintro c (h | h) <;> rw [h] <;> rfl

/-- A concrete instance of C4: three devices, nopMode on, and a send function
that would have failed on the empty token. -/
theorem C4_witness :
    (Examples.workerOf true none).nopMode = true ∧
    1 ≤ Examples.request3.Devices.length ∧
    (∀ resp ∈ ((Examples.workerOf true none).Send () Examples.request3 []).responses,
      resp.Error = none) ∧
    (∀ c ∈ ((Examples.workerOf true none).Send () Examples.request3 []).calls,
      c.isSend = false) :=
  ⟨rfl, by decide,
   (C4_Send_nopMode (Examples.workerOf true none) () Examples.request3 [] rfl
      (by decide) rfl).2.2.1,
   (C4_Send_nopMode (Examples.workerOf true none) () Examples.request3 [] rfl
      (by decide) rfl).2.2.2.2⟩

/-- C5. For every request with at least one device, successful conversion and
nopMode off, the calls made by `Send` are: the factory once, `Convert` once,
then the send function once per device in device order; the call for a device
receives that device token and the one notification object of the request, as
`Convert` left it for the first device and as the previous send left it for a
later one; the response of a device carries that token, the project id, and
exactly the error the send function returned for it (nil on success), so an
error for one device neither skips nor changes a later response. -/
theorem C5_Send_fanout (w : Worker P Out World Ctx) (ctx : Ctx)
    (req : Request P) (world : World) (hNop : w.nopMode = false)
    (hN : 1 ≤ req.Devices.length)
    (hConv : (w.reqConverter.Convert req.Payload (w.fnNewNotification world).1
      (w.fnNewNotification world).2).err = none) :
    ∃ sends : List (Call P Out World Ctx),
      (w.Send ctx req world).calls =
        Call.newNotification world ::
        Call.convert req.Payload (w.fnNewNotification world).1
          (w.fnNewNotification world).2 :: sends ∧
      sends.length = req.Devices.length ∧
      sends.filterMap Call.sendToken = req.Devices ∧
      (w.Send ctx req world).responses.length = req.Devices.length ∧
      ∀ (i : Nat) (t : String), req.Devices[i]? = some t →
        ∃ (o : Out) (wd : World),
          sends[i]? = some (Call.send ctx t o wd) ∧
          (w.Send ctx req world).responses[i]? =
            some { ProjectID := w.projectID, DeviceToken := t,
                   Error := (w.fnSendNotification ctx t o wd).err } ∧
          (i = 0 →
            o = (w.reqConverter.Convert req.Payload (w.fnNewNotification world).1
              (w.fnNewNotification world).2).out ∧
            wd = (w.reqConverter.Convert req.Payload (w.fnNewNotification world).1
              (w.fnNewNotification world).2).world) ∧
          ∀ t2 : String, req.Devices[i + 1]? = some t2 →
            sends[i + 1]? =
              some (Call.send ctx t2 (w.fnSendNotification ctx t o wd).out
                (w.fnSendNotification ctx t o wd).world) := by
  rw [Send_of_devices w ctx req world hN, hConv]
  obtain ⟨hlen, hidx⟩ := sendLoop_send w ctx hNop req.Devices
    (w.reqConverter.Convert req.Payload (w.fnNewNotification world).1
      (w.fnNewNotification world).2).out
    (w.reqConverter.Convert req.Payload (w.fnNewNotification world).1
      (w.fnNewNotification world).2).world
  exact ⟨_, rfl, hlen, (sendLoop_sendTokens w ctx hNop _ _ _).1,
    sendLoop_length _ _ _ _ _ _, hidx⟩

/-- A concrete instance of C5: three devices, the send function failing on the
second one. -/
theorem C5_witness :
    (Examples.workerOf false none).nopMode = false ∧
    1 ≤ Examples.request3.Devices.length ∧
    ∃ sends : List (Call String String (List String) Unit),
      ((Examples.workerOf false none).Send () Examples.request3 []).calls =
        Call.newNotification [] :: Call.convert "hello" "" [] :: sends ∧
      sends.filterMap Call.sendToken = ["t1", "", "t1"] := by
  obtain ⟨sends, h1, _, h3, _⟩ :=
    C5_Send_fanout (Examples.workerOf false none) () Examples.request3 [] rfl
      (by decide) rfl
  exact ⟨rfl, by decide, sends, h1, h3⟩

end worker

/-! ## Properties of the conversion -/

namespace conversion

theorem variantBranch_silent (env : Env) (s : api.SilentPush) (seq : Int) (ck : String)
    (supportsVoIP allowAlerts : Bool) (sound : Option String) :
    variantBranch env { Body := some (.SilentPush s), Seq := seq, CollapseKey := ck }
      supportsVoIP allowAlerts sound = none := rfl

theorem variantBranch_alerting (env : Env) (src : api.AlertingPush) (seq : Int)
    (ck : String) (supportsVoIP allowAlerts : Bool) (sound : Option String) :
    variantBranch env { Body := some (.AlertingPush src), Seq := seq, CollapseKey := ck }
      supportsVoIP allowAlerts sound =
      some (setAlertingPayloadAns apnspayload.NewPayload src sound allowAlerts, none) := rfl

theorem variantBranch_voip (env : Env) (src : api.VoipPush) (seq : Int)
    (ck : String) (supportsVoIP allowAlerts : Bool) (sound : Option String) :
    variantBranch env { Body := some (.VoipPush src), Seq := seq, CollapseKey := ck }
      supportsVoIP allowAlerts sound =
      some (setVoIPPayloadAns env apnspayload.NewPayload src supportsVoIP) := rfl

theorem string_length_pos {s : String} (h : s ≠ "") : s.length > 0 := by
  rcases s with ⟨l⟩
  cases l with
  | nil => exact absurd rfl h
  | cons c cs => simp [String.length]

/-- When the variant branch leaves a payload and no error and the encoder
succeeds, `RequestPbToAns` returns a request and no error. -/
theorem RequestPbToAns_of_branch (env : Env) (inp : api.PushBody)
    (supportsVoIP allowAlerts : Bool) (topic sound : Option String)
    (p : apnspayload.Payload)
    (hB : variantBranch env inp supportsVoIP allowAlerts sound = some (p, none))
    (hEnc : ∀ q, ∃ buf, env.jsonEncode q = .ok buf) :
    ∃ req, RequestPbToAns env inp supportsVoIP allowAlerts topic sound = (some req, none) := by
  obtain ⟨buf, hbuf⟩ :=
    hEnc (if inp.GetSeq > 0 then p.Custom "seq" (.int inp.GetSeq) else p)
  simp only [RequestPbToAns, hB, hbuf]
  exact ⟨_, rfl⟩

/-- C6, as stated, fails: for the silent request sent by the APNs-style worker
(nopMode off, two devices) the conversion succeeds, yet it is not true that
`Send` makes no call of the send function. -/
theorem C6_counterexample :
    ¬ ((RequestPbToAns Examples.env Examples.silentRequest.Payload true true none none).2
          = none ∧
        (Examples.apnsWorker.Send () Examples.silentRequest []).calls.filterMap
          worker.Call.sendToken = []) := by
  intro h
  have h2 : (Examples.apnsWorker.Send () Examples.silentRequest []).calls.filterMap
      worker.Call.sendToken = ["d1", "d2"] := rfl
  rw [h2] at h
  exact absurd h.2 (by decide)

/-- C6, amended. For every request whose payload is the silent variant and
whose device list is not empty, with nopMode off and a converter that reports
the error of `RequestPbToAns`: the conversion succeeds with no notification,
and `Send`, which has no special case for it, emits one response per device and
calls the send function once per device, in device order. -/
theorem C6_Send_silent_push {Out World Ctx : Type} (env : Env)
    (w : worker.Worker api.PushBody Out World Ctx) (ctx : Ctx) (world : World)
    (devices : List String) (s : api.SilentPush) (seq : Int) (ck : String)
    (supportsVoIP allowAlerts : Bool) (topic sound : Option String)
    (hNop : w.nopMode = false) (hN : 1 ≤ devices.length)
    (hConv : (w.reqConverter.Convert
        { Body := some (.SilentPush s), Seq := seq, CollapseKey := ck }
        (w.fnNewNotification world).1 (w.fnNewNotification world).2).err =
      (RequestPbToAns env { Body := some (.SilentPush s), Seq := seq, CollapseKey := ck }
        supportsVoIP allowAlerts topic sound).2) :
    RequestPbToAns env { Body := some (.SilentPush s), Seq := seq, CollapseKey := ck }
      supportsVoIP allowAlerts topic sound = (none, none) ∧
    (w.Send ctx ⟨devices, { Body := some (.SilentPush s), Seq := seq, CollapseKey := ck }⟩
      world).calls.filterMap worker.Call.sendToken = devices ∧
    (w.Send ctx ⟨devices, { Body := some (.SilentPush s), Seq := seq, CollapseKey := ck }⟩
      world).responses.length = devices.length := by
  have hR : RequestPbToAns env
      { Body := some (.SilentPush s), Seq := seq, CollapseKey := ck }
      supportsVoIP allowAlerts topic sound = (none, none) := rfl
  rw [hR] at hConv
  refine ⟨hR, ?_, ?_⟩
  · rw [worker.Send_of_devices w ctx _ world hN]
    simp only [hConv, List.filterMap_cons, worker.Call.sendToken]
    exact (worker.sendLoop_sendTokens w ctx hNop _ _ _).1
  · rw [worker.Send_of_devices w ctx _ world hN]
    exact worker.sendLoop_length _ _ _ _ _ _

/-- A concrete instance of the amended C6: the APNs-style worker and the silent
request for two devices. -/
theorem C6_witness :
    Examples.apnsWorker.nopMode = false ∧
    (Examples.apnsWorker.Send () ⟨["d1", "d2"], { Body := some (.SilentPush {}), Seq := 0, CollapseKey := "" }⟩
      []).calls.filterMap worker.Call.sendToken = ["d1", "d2"] :=
  ⟨rfl,
   (C6_Send_silent_push Examples.env Examples.apnsWorker () [] ["d1", "d2"] {} 0 ""
      true true none none rfl (by decide) rfl).2.1⟩

/-- C7. For every push body whose variant is the silent push, and for every
value of supportsVoIP, allowAlerts, topic, sound, sequence number and collapse
key, `RequestPbToAns` returns no notification and no error: nothing is built. -/
theorem C7_RequestPbToAns_silent (env : Env) (s : api.SilentPush) (seq : Int)
    (ck : String) (supportsVoIP allowAlerts : Bool) (topic sound : Option String) :
    RequestPbToAns env { Body := some (.SilentPush s), Seq := seq, CollapseKey := ck }
      supportsVoIP allowAlerts topic sound = (none, none) := rfl

/-- C8. For every push body whose variant is the VoIP push: with supportsVoIP
off, `RequestPbToAns` returns the capability error and no notification,
whatever the VoIP fields, allowAlerts, topic, sound and sequence number are;
and, the JSON encoder never failing, it returns an error and no notification
if and only if supportsVoIP is off. -/
theorem C8_RequestPbToAns_voip (env : Env) (src : api.VoipPush) (seq : Int)
    (ck : String) (supportsVoIP allowAlerts : Bool) (topic sound : Option String) :
    RequestPbToAns env { Body := some (.VoipPush src), Seq := seq, CollapseKey := ck }
      false allowAlerts topic sound =
      (none, some ⟨"attempted voip-push using non-voip certificate"⟩) ∧
    ((∀ q, ∃ buf, env.jsonEncode q = .ok buf) →
      (((RequestPbToAns env { Body := some (.VoipPush src), Seq := seq, CollapseKey := ck }
            supportsVoIP allowAlerts topic sound).2 ≠ none ∧
        (RequestPbToAns env { Body := some (.VoipPush src), Seq := seq, CollapseKey := ck }
            supportsVoIP allowAlerts topic sound).1 = none) ↔
        supportsVoIP = false)) := by
  refine ⟨rfl, ?_⟩
  intro hEnc
  cases supportsVoIP with
  | false =>
    have h : RequestPbToAns env
        { Body := some (.VoipPush src), Seq := seq, CollapseKey := ck }
        false allowAlerts topic sound =
        (none, some ⟨"attempted voip-push using non-voip certificate"⟩) := rfl
    simp [h]
  | true =>
    obtain ⟨req, hreq⟩ := RequestPbToAns_of_branch env
      { Body := some (.VoipPush src), Seq := seq, CollapseKey := ck } true allowAlerts
      topic sound (setVoIPPayloadAns env apnspayload.NewPayload src true).1 rfl hEnc
    simp [hreq]

/-- A concrete instance of C8: an encoder that never fails, a VoIP push, with
supportsVoIP on and off. -/
theorem C8_witness :
    (∀ q, ∃ buf, Examples.env.jsonEncode q = .ok buf) ∧
    (RequestPbToAns Examples.env { Body := some (.VoipPush {}), Seq := 0, CollapseKey := "" }
      false true none none).1 = none ∧
    (((RequestPbToAns Examples.env
          { Body := some (.VoipPush {}), Seq := 0, CollapseKey := "" }
          true true none none).2 ≠ none ∧
      (RequestPbToAns Examples.env
          { Body := some (.VoipPush {}), Seq := 0, CollapseKey := "" }
          true true none none).1 = none) ↔ true = false) :=
  ⟨fun _ => ⟨_, rfl⟩,
   congrArg Prod.fst
     (C8_RequestPbToAns_voip Examples.env {} 0 "" false true none none).1,
   (C8_RequestPbToAns_voip Examples.env {} 0 "" true true none none).2
     (fun _ => ⟨_, rfl⟩)⟩

/-- C9. For every alerting push with a non-empty plain title `t`, a non-empty
plain body `b` (no localized forms) and a badge above 0, converted with a
non-empty sound override `s` and allowAlerts on, the payload built has alert
title `t`, alert body `b`, that badge, sound `s` and mutable-content set, has
no localization key or argument and content-available not set, and has a custom
`category` field, holding the tag, exactly when the push carries a category
tag; it is the payload the variant branch of `RequestPbToAns` leaves, with no
error. -/
theorem C9_alerting_allowed (env : Env) (src : api.AlertingPush) (t b s : String)
    (seq : Int) (ck : String) (supportsVoIP : Bool)
    (hT : src.AlertTitle = some (.SimpleAlertTitle t)) (ht : t ≠ "")
    (hB : src.AlertBody = some (.SimpleAlertBody b)) (hb : b ≠ "")
    (hn : src.Badge > 0) (hs : s ≠ "") :
    (setAlertingPayloadAns apnspayload.NewPayload src (some s) true).alertTitle = some t ∧
    (setAlertingPayloadAns apnspayload.NewPayload src (some s) true).alertBody = some b ∧
    (setAlertingPayloadAns apnspayload.NewPayload src (some s) true).badge
      = some src.Badge ∧
    (setAlertingPayloadAns apnspayload.NewPayload src (some s) true).sound = some s ∧
    (setAlertingPayloadAns apnspayload.NewPayload src (some s) true).mutableContent
      = true ∧
    (setAlertingPayloadAns apnspayload.NewPayload src (some s) true).contentAvailable
      = false ∧
    (setAlertingPayloadAns apnspayload.NewPayload src (some s) true).alertTitleLocKey
      = none ∧
    (setAlertingPayloadAns apnspayload.NewPayload src (some s) true).alertTitleLocArgs
      = none ∧
    (setAlertingPayloadAns apnspayload.NewPayload src (some s) true).alertLocKey = none ∧
    (setAlertingPayloadAns apnspayload.NewPayload src (some s) true).alertLocArgs = none ∧
    (setAlertingPayloadAns apnspayload.NewPayload src (some s) true).customField "category"
      = src.Category.map (fun c => apnspayload.Value.str c.Value) ∧
    (((setAlertingPayloadAns apnspayload.NewPayload src (some s) true).customField
      "category").isSome = true ↔ src.Category.isSome = true) ∧
    variantBranch env { Body := some (.AlertingPush src), Seq := seq, CollapseKey := ck }
      supportsVoIP true (some s) =
      some (setAlertingPayloadAns apnspayload.NewPayload src (some s) true, none) := by
  have ht2 := string_length_pos ht
  have hb2 := string_length_pos hb
  have hs2 := string_length_pos hs
  have hcat : (setAlertingPayloadAns apnspayload.NewPayload src (some s) true).customField
      "category" = src.Category.map (fun c => apnspayload.Value.str c.Value) := by
    cases hc : src.Category <;>
      simp [setAlertingPayloadAns, hc, apnspayload.Payload.customField,
        apnspayload.Payload.Custom, apnspayload.Payload.MutableContent, setAlertPropsAns,
        api.AlertingPush.GetLocAlertTitle, api.AlertingPush.GetSimpleAlertTitle,
        api.AlertingPush.GetLocAlertBody, api.AlertingPush.GetSimpleAlertBody,
        api.AlertingPush.GetBadge, hT, hB, ht2, hb2, hs2, hn,
        apnspayload.Payload.AlertTitle, apnspayload.Payload.AlertBody,
        apnspayload.Payload.Sound, apnspayload.Payload.Badge, apnspayload.NewPayload,
        List.lookup]
  refine ⟨?_, ?_, ?_, ?_, ?_, ?_, ?_, ?_, ?_, ?_, hcat, ?_, rfl⟩
  all_goals first
    | (rw [hcat]; cases src.Category <;> simp)
    | (cases hc : src.Category <;>
        simp [setAlertingPayloadAns, hc,
          apnspayload.Payload.Custom, apnspayload.Payload.MutableContent, setAlertPropsAns,
          api.AlertingPush.GetLocAlertTitle, api.AlertingPush.GetSimpleAlertTitle,
          api.AlertingPush.GetLocAlertBody, api.AlertingPush.GetSimpleAlertBody,
          api.AlertingPush.GetBadge, hT, hB, ht2, hb2, hs2, hn,
          apnspayload.Payload.AlertTitle, apnspayload.Payload.AlertBody,
          apnspayload.Payload.Sound, apnspayload.Payload.Badge, apnspayload.NewPayload])

/-- The instance of C9 named by the claim: title "Hi", body "There", badge 3,
sound "default". -/
theorem C9_witness :
    (setAlertingPayloadAns apnspayload.NewPayload
      { AlertTitle := some (.SimpleAlertTitle "Hi")
        AlertBody := some (.SimpleAlertBody "There")
        Badge := 3 } (some "default") true).alertTitle = some "Hi" ∧
    (setAlertingPayloadAns apnspayload.NewPayload
      { AlertTitle := some (.SimpleAlertTitle "Hi")
        AlertBody := some (.SimpleAlertBody "There")
        Badge := 3 } (some "default") true).mutableContent = true :=
  ⟨(C9_alerting_allowed Examples.env
      { AlertTitle := some (.SimpleAlertTitle "Hi")
        AlertBody := some (.SimpleAlertBody "There")
        Badge := 3 } "Hi" "There" "default" 0 "" false rfl (by decide) rfl (by decide)
      (by decide) (by decide)).1,
   (C9_alerting_allowed Examples.env
      { AlertTitle := some (.SimpleAlertTitle "Hi")
        AlertBody := some (.SimpleAlertBody "There")
        Badge := 3 } "Hi" "There" "default" 0 "" false rfl (by decide) rfl (by decide)
      (by decide) (by decide)).2.2.2.2.1⟩

/-- C10. For every alerting push and every sound override, with allowAlerts
off the alerting branch returns no error and the payload it builds has
content-available set, sound set to the empty string (also when the override
is not empty), badge set to the badge of the push exactly when that badge is
above 0, and nothing else: no title, body, localization key or argument, no
mutable-content and no custom field. Hence the payload depends on the badge
only: two alerting pushes with the same badge yield the same payload whatever
their title, body, category and sound override. With an encoder that never
fails, `RequestPbToAns` returns a request and no error. -/
theorem C10_alerting_degraded (env : Env) (src : api.AlertingPush) (sound : Option String)
    (seq : Int) (ck : String) (supportsVoIP : Bool) (topic : Option String) :
    setAlertingPayloadAns apnspayload.NewPayload src sound false =
      { contentAvailable := true
        sound := some ""
        badge := if src.Badge > 0 then some src.Badge else none
        alertTitle := none
        alertBody := none
        alertLocKey := none
        alertLocArgs := none
        alertTitleLocKey := none
        alertTitleLocArgs := none
        mutableContent := false
        custom := [] } ∧
    (setAlertingPayloadAns apnspayload.NewPayload src sound false).customField "category"
      = none ∧
    variantBranch env { Body := some (.AlertingPush src), Seq := seq, CollapseKey := ck }
      supportsVoIP false sound =
      some (setAlertingPayloadAns apnspayload.NewPayload src sound false, none) ∧
    (∀ (src2 : api.AlertingPush) (sound2 : Option String), src2.Badge = src.Badge →
      setAlertingPayloadAns apnspayload.NewPayload src2 sound2 false =
        setAlertingPayloadAns apnspayload.NewPayload src sound false) ∧
    ((∀ q, ∃ buf, env.jsonEncode q = .ok buf) →
      ∃ req, RequestPbToAns env
        { Body := some (.AlertingPush src), Seq := seq, CollapseKey := ck }
        supportsVoIP false topic sound = (some req, none)) := by
  have hP : ∀ (x : api.AlertingPush) (so : Option String),
      setAlertingPayloadAns apnspayload.NewPayload x so false =
      { contentAvailable := true
        sound := some ""
        badge := if x.Badge > 0 then some x.Badge else none
        alertTitle := none
        alertBody := none
        alertLocKey := none
        alertLocArgs := none
        alertTitleLocKey := none
        alertTitleLocArgs := none
        mutableContent := false
        custom := [] } := by
    intro x so
    by_cases h : x.Badge > 0 <;>
      simp [setAlertingPayloadAns, api.AlertingPush.GetBadge, h,
        apnspayload.Payload.Badge, apnspayload.Payload.ContentAvailable,
        apnspayload.Payload.Sound, apnspayload.NewPayload]
  refine ⟨hP src sound, ?_, rfl, ?_, ?_⟩
  · rw [hP src sound]; rfl
  · intro src2 sound2 h
    rw [hP src2 sound2, hP src sound, h]
  · intro hEnc
    exact RequestPbToAns_of_branch env _ supportsVoIP false topic sound _ rfl hEnc

/-- A concrete instance of C10: the push of C9 and a push with another title,
no body, a category and no sound override, both with badge 3. -/
theorem C10_witness :
    setAlertingPayloadAns apnspayload.NewPayload
      { AlertTitle := some (.LocAlertTitle { LocKey := "k" })
        Category := some ⟨"chat"⟩
        Badge := 3 } none false =
    setAlertingPayloadAns apnspayload.NewPayload
      { AlertTitle := some (.SimpleAlertTitle "Hi")
        AlertBody := some (.SimpleAlertBody "There")
        Badge := 3 } (some "default") false ∧
    ∃ req, RequestPbToAns Examples.env
      { Body := some (.AlertingPush
          { AlertTitle := some (.SimpleAlertTitle "Hi")
            AlertBody := some (.SimpleAlertBody "There")
            Badge := 3 })
        Seq := 0
        CollapseKey := "" } false false none (some "default") = (some req, none) :=
  ⟨(C10_alerting_degraded Examples.env
      { AlertTitle := some (.SimpleAlertTitle "Hi")
        AlertBody := some (.SimpleAlertBody "There")
        Badge := 3 } (some "default") 0 "" false none).2.2.2.1
      { AlertTitle := some (.LocAlertTitle { LocKey := "k" })
        Category := some ⟨"chat"⟩
        Badge := 3 } none rfl,
   (C10_alerting_degraded Examples.env
      { AlertTitle := some (.SimpleAlertTitle "Hi")
        AlertBody := some (.SimpleAlertBody "There")
        Badge := 3 } (some "default") 0 "" false none).2.2.2.2 (fun _ => ⟨_, rfl⟩)⟩

end conversion

/-! ## Lemmas on the payload builder and on the shape of `RequestPbToAns` -/

namespace apnspayload

theorem lookup_filter_ne (k key : String) (l : List (String × Value)) (h : k ≠ key) :
    List.lookup k (l.filter (fun kv => kv.1 != key)) = List.lookup k l := by
  induction l with
  | nil => rfl
  | cons kv rest ih =>
    obtain ⟨k2, v2⟩ := kv
    by_cases h2 : k2 = key
    · subst h2
      have hk : (k == k2) = false := by simpa using h
      simp [List.filter, List.lookup, hk, ih]
    · have hk : (k2 != key) = true := by simpa using h2
      simp only [List.filter, hk, List.lookup, ih]

theorem customField_Custom_self (p : Payload) (key : String) (v : Value) :
    (p.Custom key v).customField key = some v := by
  simp [Payload.Custom, Payload.customField, List.lookup]

theorem customField_Custom_ne (p : Payload) (k key : String) (v : Value) (h : k ≠ key) :
    (p.Custom key v).customField k = p.customField k := by
  have hk : (k == key) = false := by simpa using h
  simp only [Payload.Custom, Payload.customField, List.lookup, hk]
  exact lookup_filter_ne k key p.custom h

end apnspayload

namespace conversion

theorem setAlertPropsAns_custom (p : apnspayload.Payload) (a : api.AlertingPush)
    (sound : Option String) :
    (setAlertPropsAns p a sound).custom = p.custom ∧
    (setAlertPropsAns p a sound).mutableContent = p.mutableContent ∧
    (setAlertPropsAns p a sound).contentAvailable = p.contentAvailable := by
  unfold setAlertPropsAns
  cases a.GetLocAlertTitle <;> cases a.GetLocAlertBody <;> cases sound <;>
    simp only [apnspayload.Payload.AlertTitleLocKey, apnspayload.Payload.AlertTitleLocArgs,
      apnspayload.Payload.AlertTitle, apnspayload.Payload.AlertLocKey,
      apnspayload.Payload.AlertLocArgs, apnspayload.Payload.AlertBody,
      apnspayload.Payload.Sound, apnspayload.Payload.Badge] <;>
    (repeat' split) <;> exact ⟨rfl, rfl, rfl⟩

/-- The shape of the result of `RequestPbToAns` once the variant branch has
left a payload and no error: the request is made of the encoding of the
payload, completed by the `seq` field, and of the three headers. -/
theorem RequestPbToAns_eq (env : Env) (inp : api.PushBody)
    (supportsVoIP allowAlerts : Bool) (topic sound : Option String)
    (p0 : apnspayload.Payload)
    (hB : variantBranch env inp supportsVoIP allowAlerts sound = some (p0, none)) :
    RequestPbToAns env inp supportsVoIP allowAlerts topic sound =
      match env.jsonEncode
          (if inp.GetSeq > 0 then p0.Custom "seq" (.int inp.GetSeq) else p0) with
      | .error err => (none, some err)
      | .ok buf =>
        (some { Token := ""
                Headers :=
                  { Expiration := env.now + 20 * Time.Minute
                    CollapseID := inp.CollapseKey
                    Topic := topic.getD "" }
                Payload := buf }, none) := by
  simp only [RequestPbToAns, hB]
  cases env.jsonEncode (if inp.GetSeq > 0 then p0.Custom "seq" (.int inp.GetSeq) else p0) with
  | error err => rfl
  | ok buf =>
    have hz : Time.IsZero (Time.Truncate (0 : Int) Time.Hour) = true := by decide
    by_cases h : inp.CollapseKey = ""
    · cases topic with
      | none => simp [hz, Time.Add, api.PushBody.GetCollapseKey, h]
      | some t =>
        by_cases ht : t = "" <;> simp [hz, Time.Add, api.PushBody.GetCollapseKey, h, ht]
    · cases topic with
      | none => simp [hz, Time.Add, api.PushBody.GetCollapseKey, h]
      | some t =>
        by_cases ht : t = "" <;> simp [hz, Time.Add, api.PushBody.GetCollapseKey, h, ht]

theorem setVoIPPayloadAns_err (env : Env) (p : apnspayload.Payload) (src : api.VoipPush) :
    (setVoIPPayloadAns env p src true).2 = none := by
  simp [setVoIPPayloadAns]

theorem setVoIPPayloadAns_seq (env : Env) (src : api.VoipPush) :
    (setVoIPPayloadAns env apnspayload.NewPayload src true).1.customField "seq" = none := by
  cases hp : src.Peer <;> cases ho : src.OutPeer <;> cases hm : src.Merge <;>
    simp [setVoIPPayloadAns, hp, ho, hm, apnspayload.customField_Custom_ne] <;> rfl

theorem customField_NewPayload (k : String) :
    apnspayload.NewPayload.customField k = none := rfl

theorem customField_MutableContent (p : apnspayload.Payload) (k : String) :
    p.MutableContent.customField k = p.customField k := rfl

theorem customField_setAlertPropsAns (p : apnspayload.Payload) (a : api.AlertingPush)
    (sound : Option String) (k : String) :
    (setAlertPropsAns p a sound).customField k = p.customField k := by
  simp only [apnspayload.Payload.customField, (setAlertPropsAns_custom p a sound).1]

theorem setAlertingPayloadAns_seq (src : api.AlertingPush) (sound : Option String)
    (allowAlerts : Bool) :
    (setAlertingPayloadAns apnspayload.NewPayload src sound allowAlerts).customField "seq"
      = none := by
  cases allowAlerts with
  | true =>
    cases hc : src.Category <;>
      simp [setAlertingPayloadAns, hc, apnspayload.customField_Custom_ne,
        customField_MutableContent, customField_setAlertPropsAns, customField_NewPayload]
  | false =>
    by_cases hb : src.GetBadge > 0 <;>
      simp [setAlertingPayloadAns, hb, apnspayload.Payload.customField,
        apnspayload.Payload.Badge, apnspayload.Payload.ContentAvailable,
        apnspayload.Payload.Sound, apnspayload.NewPayload]

theorem setEncryptedPayload_ok (env : Env) (src : api.EncryptedPush) (sound : Option String)
    (hd : src.EncryptedData ≠ []) :
    (setEncryptedPayload env apnspayload.NewPayload src sound).2 = none ∧
    (setEncryptedPayload env apnspayload.NewPayload src sound).1.customField "seq" = none := by
  have hl : ¬ src.EncryptedData.length = 0 := by
    intro h; exact hd (List.length_eq_zero.mp h)
  cases hp : src.PublicAlertingPush <;>
    simp [setEncryptedPayload, hp, hl, apnspayload.customField_Custom_ne,
      customField_MutableContent, customField_setAlertPropsAns, customField_NewPayload]

theorem variantBranch_encrypted (env : Env) (src : api.EncryptedPush) (seq : Int)
    (ck : String) (supportsVoIP allowAlerts : Bool) (sound : Option String) :
    variantBranch env { Body := some (.EncryptedPush src), Seq := seq, CollapseKey := ck }
      supportsVoIP allowAlerts sound =
      some (setEncryptedPayload env apnspayload.NewPayload src sound) := rfl

/-- The three variants that build a notification leave a payload without a
`seq` field and no error. -/
theorem variantBranch_builds (env : Env) (inp : api.PushBody)
    (supportsVoIP allowAlerts : Bool) (sound : Option String)
    (h : (∃ v, inp.Body = some (.VoipPush v) ∧ supportsVoIP = true) ∨
         (∃ a, inp.Body = some (.AlertingPush a)) ∨
         (∃ e, inp.Body = some (.EncryptedPush e) ∧ e.EncryptedData ≠ [])) :
    ∃ p0, variantBranch env inp supportsVoIP allowAlerts sound = some (p0, none) ∧
      p0.customField "seq" = none := by
  obtain ⟨body, seq, ck⟩ := inp
  rcases h with ⟨v, hv, hs⟩ | ⟨a, ha⟩ | ⟨e, he, hd⟩
  · simp only at hv
    subst hv hs
    refine ⟨(setVoIPPayloadAns env apnspayload.NewPayload v true).1, ?_,
      setVoIPPayloadAns_seq env v⟩
    rw [variantBranch_voip, ← setVoIPPayloadAns_err env apnspayload.NewPayload v]
  · simp only at ha
    subst ha
    exact ⟨_, variantBranch_alerting env a seq ck supportsVoIP allowAlerts sound,
      setAlertingPayloadAns_seq a sound allowAlerts⟩
  · simp only at he
    subst he
    obtain ⟨h1, h2⟩ := setEncryptedPayload_ok env e sound hd
    refine ⟨(setEncryptedPayload env apnspayload.NewPayload e sound).1, ?_, h2⟩
    rw [variantBranch_encrypted, ← h1]

/-- C11. For every push body whose variant is the encrypted push: when the
encrypted data is empty `RequestPbToAns` returns `ErrEmptyEncryptedPayload` and
no notification, whether or not a public alerting push is embedded; and, the
JSON encoder never failing, it returns an error if and only if the encrypted
data is empty. -/
theorem C11_RequestPbToAns_encrypted (env : Env) (src : api.EncryptedPush) (seq : Int)
    (ck : String) (supportsVoIP allowAlerts : Bool) (topic sound : Option String) :
    (src.EncryptedData = [] →
      RequestPbToAns env { Body := some (.EncryptedPush src), Seq := seq, CollapseKey := ck }
        supportsVoIP allowAlerts topic sound = (none, some env.ErrEmptyEncryptedPayload)) ∧
    ((∀ q, ∃ buf, env.jsonEncode q = .ok buf) →
      ((RequestPbToAns env
          { Body := some (.EncryptedPush src), Seq := seq, CollapseKey := ck }
          supportsVoIP allowAlerts topic sound).2 ≠ none ↔ src.EncryptedData = [])) := by
  have h1 : src.EncryptedData = [] →
      RequestPbToAns env { Body := some (.EncryptedPush src), Seq := seq, CollapseKey := ck }
        supportsVoIP allowAlerts topic sound = (none, some env.ErrEmptyEncryptedPayload) := by
    intro hd
    simp [RequestPbToAns, variantBranch_encrypted, setEncryptedPayload, hd]
  refine ⟨h1, ?_⟩
  intro hEnc
  constructor
  · intro hne
    by_contra hd
    obtain ⟨p0, hp0, _⟩ := variantBranch_builds env
      { Body := some (.EncryptedPush src), Seq := seq, CollapseKey := ck }
      supportsVoIP allowAlerts sound (Or.inr (Or.inr ⟨src, rfl, hd⟩))
    obtain ⟨req, hreq⟩ := RequestPbToAns_of_branch env _ supportsVoIP allowAlerts
      topic sound p0 hp0 hEnc
    rw [hreq] at hne
    exact hne rfl
  · intro hd
    rw [h1 hd]
    simp

/-- A concrete instance of C11: an encoder that never fails, an encrypted push
with no data and one with two bytes of data. -/
theorem C11_witness :
    (∀ q, ∃ buf, Examples.env.jsonEncode q = .ok buf) ∧
    RequestPbToAns Examples.env
      { Body := some (.EncryptedPush { PublicAlertingPush := some { Badge := 1 } })
        Seq := 0
        CollapseKey := "" } true true none none
      = (none, some Examples.env.ErrEmptyEncryptedPayload) ∧
    ((RequestPbToAns Examples.env
        { Body := some (.EncryptedPush { EncryptedData := [77, 97] })
          Seq := 0
          CollapseKey := "" } true true none none).2 ≠ none ↔
      ([77, 97] : List api.Byte) = []) :=
  ⟨fun _ => ⟨_, rfl⟩,
   (C11_RequestPbToAns_encrypted Examples.env { PublicAlertingPush := some { Badge := 1 } }
      0 "" true true none none).1 rfl,
   (C11_RequestPbToAns_encrypted Examples.env { EncryptedData := [77, 97] }
      0 "" true true none none).2 (fun _ => ⟨_, rfl⟩)⟩

/-- C12. For every push body with a VoIP push (supportsVoIP on), an alerting
push or an encrypted push (data not empty), the payload `RequestPbToAns` hands
to the encoder is the payload left by the variant branch completed as follows:
it has a custom `seq` field, holding the sequence number of the request, if
and only if that number is above 0; for a sequence number 0 or below there is
no `seq` field; every other custom field is as the branch left it. -/
theorem C12_seq_field (env : Env) (inp : api.PushBody)
    (supportsVoIP allowAlerts : Bool) (topic sound : Option String)
    (h : (∃ v, inp.Body = some (.VoipPush v) ∧ supportsVoIP = true) ∨
         (∃ a, inp.Body = some (.AlertingPush a)) ∨
         (∃ e, inp.Body = some (.EncryptedPush e) ∧ e.EncryptedData ≠ [])) :
    ∃ p0 p : apnspayload.Payload,
      variantBranch env inp supportsVoIP allowAlerts sound = some (p0, none) ∧
      RequestPbToAns env inp supportsVoIP allowAlerts topic sound =
        (match env.jsonEncode p with
         | .error err => (none, some err)
         | .ok buf =>
           (some { Token := ""
                   Headers :=
                     { Expiration := env.now + 20 * Time.Minute
                       CollapseID := inp.CollapseKey
                       Topic := topic.getD "" }
                   Payload := buf }, none)) ∧
      p.customField "seq" = (if inp.Seq > 0 then some (.int inp.Seq) else none) ∧
      ((p.customField "seq").isSome = true ↔ inp.Seq > 0) ∧
      (inp.Seq ≤ 0 → p.customField "seq" = none) ∧
      (∀ k, k ≠ "seq" → p.customField k = p0.customField k) := by
  obtain ⟨p0, hp0, hseq⟩ := variantBranch_builds env inp supportsVoIP allowAlerts sound h
  refine ⟨p0, if inp.GetSeq > 0 then p0.Custom "seq" (.int inp.GetSeq) else p0, hp0,
    RequestPbToAns_eq env inp supportsVoIP allowAlerts topic sound p0 hp0, ?_⟩
  by_cases hs : inp.Seq > 0
  · have hle : ¬ inp.Seq ≤ 0 := by omega
    simp only [api.PushBody.GetSeq, hs, if_true, apnspayload.customField_Custom_self,
      Option.isSome_some, true_iff, hle, false_implies, true_and]
    intro k hk
    exact apnspayload.customField_Custom_ne p0 k "seq" _ hk
  · have hle : inp.Seq ≤ 0 := by omega
    simp [api.PushBody.GetSeq, hs, hseq]

/-- A concrete instance of C12: an alerting push with sequence number 4. -/
theorem C12_witness :
    ∃ p0 p : apnspayload.Payload,
      variantBranch Examples.env
        { Body := some (.AlertingPush { Badge := 3 }), Seq := 4, CollapseKey := "" }
        false true none = some (p0, none) ∧
      p.customField "seq" = some (.int 4) := by
  obtain ⟨p0, p, h1, _, h3, _⟩ := C12_seq_field Examples.env
    { Body := some (.AlertingPush { Badge := 3 }), Seq := 4, CollapseKey := "" }
    false true none none (Or.inr (Or.inl ⟨_, rfl⟩))
  exact ⟨p0, p, h1, h3⟩

/-- C18. For every conversion by `RequestPbToAns`, at the time `now`, that
returns a request: the expiration header is `now` plus 20 minutes, the collapse
id is the collapse key of the request (empty when the key is empty), the topic
is the supplied topic when it is present and not empty and is empty otherwise,
the token is not set, and the payload of the request is the encoding of the
payload built: the one left by the variant branch, completed by the `seq`
field. -/
theorem C18_headers (env : Env) (inp : api.PushBody)
    (supportsVoIP allowAlerts : Bool) (topic sound : Option String) (req : ans.Request)
    (h : RequestPbToAns env inp supportsVoIP allowAlerts topic sound = (some req, none)) :
    req.Headers.Expiration = env.now + 20 * Time.Minute ∧
    20 * Time.Minute = 20 * 60 * 1000000000 ∧
    req.Headers.CollapseID = inp.CollapseKey ∧
    req.Headers.Topic = topic.getD "" ∧
    (∀ t, topic = some t → t ≠ "" → req.Headers.Topic = t) ∧
    (topic = none ∨ topic = some "" → req.Headers.Topic = "") ∧
    req.Token = "" ∧
    ∃ p0, variantBranch env inp supportsVoIP allowAlerts sound = some (p0, none) ∧
      env.jsonEncode (if inp.Seq > 0 then p0.Custom "seq" (.int inp.Seq) else p0)
        = .ok req.Payload := by
  have hshape : ∃ p0, variantBranch env inp supportsVoIP allowAlerts sound
      = some (p0, none) := by
    cases hb : variantBranch env inp supportsVoIP allowAlerts sound with
    | none => simp [RequestPbToAns, hb] at h
    | some pe =>
      obtain ⟨p0, e⟩ := pe
      cases e with
      | none => exact ⟨p0, rfl⟩
      | some err => simp [RequestPbToAns, hb] at h
  obtain ⟨p0, hp0⟩ := hshape
  have heq := RequestPbToAns_eq env inp supportsVoIP allowAlerts topic sound p0 hp0
  rw [h] at heq
  cases hj : env.jsonEncode
      (if inp.GetSeq > 0 then p0.Custom "seq" (.int inp.GetSeq) else p0) with
  | error err => rw [hj] at heq; simp at heq
  | ok buf =>
    rw [hj] at heq
    simp only [Prod.mk.injEq, Option.some.injEq, and_true] at heq
    subst heq
    refine ⟨rfl, by decide, rfl, rfl, ?_, ?_, rfl, p0, hp0, hj⟩
    · intro t ht _
      rw [ht]; rfl
    · rintro (ht | ht) <;> rw [ht] <;> rfl

/-- A concrete instance of C18: an alerting push converted at time 1000 with
collapse key "c" and topic "app". -/
theorem C18_witness :
    RequestPbToAns Examples.env
      { Body := some (.AlertingPush { Badge := 3 }), Seq := 0, CollapseKey := "c" }
      false true (some "app") none =
      (some { Token := ""
              Headers := { Expiration := 1200000001000, CollapseID := "c", Topic := "app" }
              Payload := [0] }, none) ∧
    (1200000001000 : Int) = Examples.env.now + 20 * Time.Minute ∧
    ("app" : String) = (some "app").getD "" :=
  ⟨rfl,
   (C18_headers Examples.env
      { Body := some (.AlertingPush { Badge := 3 }), Seq := 0, CollapseKey := "c" }
      false true (some "app") none
      { Token := ""
        Headers := { Expiration := 1200000001000, CollapseID := "c", Topic := "app" }
        Payload := [0] } rfl).1,
   (C18_headers Examples.env
      { Body := some (.AlertingPush { Badge := 3 }), Seq := 0, CollapseKey := "c" }
      false true (some "app") none
      { Token := ""
        Headers := { Expiration := 1200000001000, CollapseID := "c", Topic := "app" }
        Payload := [0] } rfl).2.2.2.1⟩

end conversion

/-! ## Properties of the permit pool -/

namespace worker

variable {P Out World Ctx : Type}

theorem fillThreads_eq (n cap len : Nat) (h : len + n ≤ cap) :
    fillThreads n ⟨cap, len⟩ = some ⟨cap, len + n⟩ := by
  induction n generalizing len with
  | zero => rfl
  | succ k ih =>
    have hlt : len < cap := by omega
    simp only [fillThreads, Chan.send, hlt, if_true, Option.some_bind]
    rw [ih (len + 1) (by omega)]
    congr 2
    omega

theorem Send_released (w : Worker P Out World Ctx) (ctx : Ctx) (req : Request P)
    (world : World) :
    (w.Send ctx req world).released = true ∧ (w.Send ctx req world).closed = true := by
  by_cases h : req.Devices.length = 0 <;> simp [Worker.Send, h]

/-- One step keeps the capacity of the pool and the sum of the free permits
and of the tasks in flight. -/
theorem step_invariant (w : Worker P Out World Ctx) (s s2 : Engine P World Ctx)
    (e : Event P Ctx) (hs : w.step s e = some s2) :
    s2.threads.cap = s.threads.cap ∧
    s2.threads.len + s2.inFlight.length = s.threads.len + s.inFlight.length := by
  cases e with
  | acquire ctx req =>
    by_cases hl : 0 < s.threads.len
    · simp only [Worker.step, Chan.recv, hl, if_true, Option.some.injEq] at hs
      subst hs
      simp only [List.length_append, List.length_singleton, true_and]
      omega
    · simp [Worker.step, Chan.recv, hl] at hs
  | finish i =>
    cases ht : s.inFlight[i]? with
    | none => simp [Worker.step, ht] at hs
    | some task =>
      have hi : i < s.inFlight.length := (List.getElem?_eq_some.mp ht).1
      have hr := (Send_released w task.1 task.2 s.world).1
      by_cases hl : s.threads.len < s.threads.cap
      · simp only [Worker.step, ht, hr, if_true, Chan.send, hl, Option.some.injEq] at hs
        subst hs
        simp only [List.length_eraseIdx, hi, if_true, true_and]
        omega
      · simp [Worker.step, ht, hr, Chan.send, hl] at hs

theorem run_invariant (w : Worker P Out World Ctx) (events : List (Event P Ctx))
    (s s2 : Engine P World Ctx) (hs : w.run events s = some s2) :
    s2.threads.cap = s.threads.cap ∧
    s2.threads.len + s2.inFlight.length = s.threads.len + s.inFlight.length := by
  induction events generalizing s with
  | nil =>
    simp only [Worker.run, Option.some.injEq] at hs
    subst hs
    exact ⟨rfl, rfl⟩
  | cons e es ih =>
    cases h1 : w.step s e with
    | none => simp [Worker.run, h1] at hs
    | some s1 =>
      simp only [Worker.run, h1, Option.some_bind] at hs
      obtain ⟨a1, a2⟩ := step_invariant w s s1 e h1
      obtain ⟨b1, b2⟩ := ih s1 hs
      exact ⟨b1.trans a1, b2.trans a2⟩

/-- What `New` returns: the worker over the given collaborators whose pool has
capacity max(1, CountThreads) and is full. -/
theorem New_eq (cfg : Config) (kind : Kind)
    (reqConverter : IRequestConverter P Out World)
    (fnNewNotification : FnNewNotification Out World)
    (fnSendNotification : FnSendNotification Out World Ctx) :
    New cfg kind reqConverter fnNewNotification fnSendNotification =
      some { projectID := cfg.ProjectID
             kind := kind
             nopMode := cfg.NopMode
             threads := ⟨(max 1 cfg.CountThreads).toNat, (max 1 cfg.CountThreads).toNat⟩
             reqConverter := reqConverter
             fnNewNotification := fnNewNotification
             fnSendNotification := fnSendNotification } := by
  have hk : (if cfg.CountThreads ≤ 0 then (1 : Int) else cfg.CountThreads)
      = max 1 cfg.CountThreads := by
    by_cases h : cfg.CountThreads ≤ 0
    · simp only [h, if_true]; omega
    · simp only [h, if_false]; omega
  have hf := fillThreads_eq (max 1 cfg.CountThreads).toNat (max 1 cfg.CountThreads).toNat 0
    (by omega)
  simp only [Nat.zero_add] at hf
  simp only [New, hk, Chan.make, hf]

/-- C13. For every configured CountThreads value, zero and negative values
included, `New` returns a worker whose permit pool has capacity
max(1, CountThreads) and holds that many free permits. -/
theorem C13_New_pool (cfg : Config) (kind : Kind)
    (reqConverter : IRequestConverter P Out World)
    (fnNewNotification : FnNewNotification Out World)
    (fnSendNotification : FnSendNotification Out World Ctx) :
    ∃ w : Worker P Out World Ctx,
      New cfg kind reqConverter fnNewNotification fnSendNotification = some w ∧
      w.threads.cap = (max 1 cfg.CountThreads).toNat ∧
      w.threads.len = (max 1 cfg.CountThreads).toNat ∧
      1 ≤ w.threads.len ∧
      w.projectID = cfg.ProjectID ∧ w.nopMode = cfg.NopMode := by
  refine ⟨_, New_eq cfg kind reqConverter fnNewNotification fnSendNotification,
    rfl, rfl, ?_, rfl, rfl⟩
  show 1 ≤ (max 1 cfg.CountThreads).toNat
  omega

/-- C14. In every state reached from the worker returned by `New` by steps in
which a `Send` takes a permit and starts its dispatch task and steps in which a
task ends and gives its permit back, the free permits and the tasks in flight
add up to K = max(1, CountThreads). A `Send` can take its step only when a
permit is free, so never more than K requests are in flight, and with K tasks
in flight a further `Send` cannot proceed; any task in flight can end, whatever
its request (an empty device list included, the permit being given back on
every path), and once it has ended a `Send` can proceed. -/
theorem C14_pool_invariant (cfg : Config) (kind : Kind)
    (reqConverter : IRequestConverter P Out World)
    (fnNewNotification : FnNewNotification Out World)
    (fnSendNotification : FnSendNotification Out World Ctx)
    (w : Worker P Out World Ctx) (world : World) (events : List (Event P Ctx))
    (s : Engine P World Ctx)
    (hNew : New cfg kind reqConverter fnNewNotification fnSendNotification = some w)
    (hRun : w.run events (w.start world) = some s) :
    s.threads.cap = (max 1 cfg.CountThreads).toNat ∧
    s.threads.len + s.inFlight.length = (max 1 cfg.CountThreads).toNat ∧
    s.inFlight.length ≤ (max 1 cfg.CountThreads).toNat ∧
    (∀ ctx req, (w.step s (.acquire ctx req)).isSome = true ↔ 0 < s.threads.len) ∧
    (s.inFlight.length = (max 1 cfg.CountThreads).toNat →
      ∀ ctx req, w.step s (.acquire ctx req) = none) ∧
    (∀ i, i < s.inFlight.length →
      ∃ s2, w.step s (.finish i) = some s2 ∧
        s2.threads.len = s.threads.len + 1 ∧
        s2.inFlight.length + 1 = s.inFlight.length ∧
        ∀ ctx req, (w.step s2 (.acquire ctx req)).isSome = true) ∧
    (∀ ctx req world2, (w.Send ctx req world2).released = true) := by
  have hw0 := New_eq cfg kind reqConverter fnNewNotification fnSendNotification
  rw [hNew] at hw0
  have hw := Option.some.inj hw0
  have hcap : w.threads.cap = (max 1 cfg.CountThreads).toNat := by rw [hw]
  have hlen : w.threads.len = (max 1 cfg.CountThreads).toNat := by rw [hw]
  obtain ⟨h1, h2⟩ := run_invariant w events (w.start world) s hRun
  simp only [Worker.start, List.length_nil, Nat.add_zero] at h1 h2
  rw [hcap] at h1
  rw [hlen] at h2
  have hacq : ∀ ctx req,
      (w.step s (.acquire ctx req)).isSome = true ↔ 0 < s.threads.len := by
    intro ctx req
    by_cases hl : 0 < s.threads.len <;> simp [Worker.step, Chan.recv, hl]
  refine ⟨h1, h2, by omega, hacq, ?_, ?_, fun ctx req world2 =>
    (Send_released w ctx req world2).1⟩
  · intro hfull ctx req
    have hl : ¬ 0 < s.threads.len := by omega
    simp [Worker.step, Chan.recv, hl]
  · intro i hi
    have ht : s.inFlight[i]? = some (s.inFlight[i]) := List.getElem?_eq_getElem hi
    have hr := (Send_released w (s.inFlight[i]).1 (s.inFlight[i]).2 s.world).1
    have hl : s.threads.len < s.threads.cap := by omega
    refine ⟨{ threads := ⟨s.threads.cap, s.threads.len + 1⟩
              inFlight := s.inFlight.eraseIdx i
              world := (w.Send (s.inFlight[i]).1 (s.inFlight[i]).2 s.world).world }, ?_,
      rfl, ?_, ?_⟩
    · simp only [Worker.step, ht, hr, if_true, Chan.send, hl]
    · simp only [List.length_eraseIdx, hi, if_true]
      omega
    · intro ctx req
      simp [Worker.step, Chan.recv]

/-- A concrete instance of C14: a worker built with three threads, after three
calls of `Send` (one of them with an empty device list) no permit is free and
any of the three tasks can end. -/
theorem C14_witness :
    New Examples.config3 0 (Examples.converterOf none) (fun world => ("", world))
      Examples.sendLog = some Examples.pooledWorker ∧
    Examples.pooledWorker.run
      [.acquire () Examples.request3, .acquire () ⟨[], "x"⟩, .acquire () Examples.request3]
      (Examples.pooledWorker.start []) =
      some { threads := ⟨3, 0⟩
             inFlight := [((), Examples.request3), ((), ⟨[], "x"⟩), ((), Examples.request3)]
             world := [] } ∧
    (∀ (ctx : Unit) (req : Request String),
      Examples.pooledWorker.step
        { threads := ⟨3, 0⟩
          inFlight := [((), Examples.request3), ((), ⟨[], "x"⟩), ((), Examples.request3)]
          world := ([] : List String) } (.acquire ctx req) = none) :=
  ⟨rfl, rfl,
   (C14_pool_invariant Examples.config3 0 (Examples.converterOf none)
      (fun world => ("", world)) Examples.sendLog Examples.pooledWorker []
      [.acquire () Examples.request3, .acquire () ⟨[], "x"⟩, .acquire () Examples.request3]
      { threads := ⟨3, 0⟩
        inFlight := [((), Examples.request3), ((), ⟨[], "x"⟩), ((), Examples.request3)]
        world := [] } rfl rfl).2.2.2.2.1 rfl⟩

end worker

/-! ## Properties of the alert population and of the encrypted and VoIP payloads -/

namespace conversion

/-- The title fields `setAlertPropsAns` leaves, read off the title getters. -/
theorem setAlertPropsAns_title (p : apnspayload.Payload) (a : api.AlertingPush)
    (sound : Option String) :
    (setAlertPropsAns p a sound).alertTitle =
      (match a.GetLocAlertTitle with
       | some _ => p.alertTitle
       | none =>
         if a.GetSimpleAlertTitle.length > 0 then some a.GetSimpleAlertTitle
         else p.alertTitle) ∧
    (setAlertPropsAns p a sound).alertTitleLocKey =
      (match a.GetLocAlertTitle with
       | some l => some l.LocKey
       | none => p.alertTitleLocKey) ∧
    (setAlertPropsAns p a sound).alertTitleLocArgs =
      (match a.GetLocAlertTitle with
       | some l => some l.LocArgs
       | none => p.alertTitleLocArgs) := by
  unfold setAlertPropsAns
  cases a.GetLocAlertTitle <;> cases a.GetLocAlertBody <;> cases sound <;>
    simp only [apnspayload.Payload.AlertTitleLocKey, apnspayload.Payload.AlertTitleLocArgs,
      apnspayload.Payload.AlertTitle, apnspayload.Payload.AlertLocKey,
      apnspayload.Payload.AlertLocArgs, apnspayload.Payload.AlertBody,
      apnspayload.Payload.Sound, apnspayload.Payload.Badge] <;>
    (repeat' split) <;> simp_all

/-- The body fields `setAlertPropsAns` leaves, read off the body getters. -/
theorem setAlertPropsAns_body (p : apnspayload.Payload) (a : api.AlertingPush)
    (sound : Option String) :
    (setAlertPropsAns p a sound).alertBody =
      (match a.GetLocAlertBody with
       | some _ => p.alertBody
       | none =>
         if a.GetSimpleAlertBody.length > 0 then some a.GetSimpleAlertBody
         else p.alertBody) ∧
    (setAlertPropsAns p a sound).alertLocKey =
      (match a.GetLocAlertBody with
       | some l => some l.LocKey
       | none => p.alertLocKey) ∧
    (setAlertPropsAns p a sound).alertLocArgs =
      (match a.GetLocAlertBody with
       | some l => some l.LocArgs
       | none => p.alertLocArgs) := by
  unfold setAlertPropsAns
  cases a.GetLocAlertTitle <;> cases a.GetLocAlertBody <;> cases sound <;>
    simp only [apnspayload.Payload.AlertTitleLocKey, apnspayload.Payload.AlertTitleLocArgs,
      apnspayload.Payload.AlertTitle, apnspayload.Payload.AlertLocKey,
      apnspayload.Payload.AlertLocArgs, apnspayload.Payload.AlertBody,
      apnspayload.Payload.Sound, apnspayload.Payload.Badge] <;>
    (repeat' split) <;> simp_all


/-- C17. For every alerting push populated by `setAlertPropsAns` on a fresh
payload: when a localized title is present the title localization key and
arguments are set from it and the plain title is not set; otherwise the plain
title is set, to the plain string, only when that string is not empty, and an
empty plain title sets no title field at all; the plain and the localized
title are never both set. The body follows the same rule, and the title fields
depend on the title alone and the body fields on the body alone. -/
theorem C17_title_body_precedence (a : api.AlertingPush) (sound : Option String) :
    (∀ l, a.GetLocAlertTitle = some l →
      (setAlertPropsAns apnspayload.NewPayload a sound).alertTitleLocKey = some l.LocKey ∧
      (setAlertPropsAns apnspayload.NewPayload a sound).alertTitleLocArgs = some l.LocArgs ∧
      (setAlertPropsAns apnspayload.NewPayload a sound).alertTitle = none) ∧
    (a.GetLocAlertTitle = none → a.GetSimpleAlertTitle ≠ "" →
      (setAlertPropsAns apnspayload.NewPayload a sound).alertTitle
        = some a.GetSimpleAlertTitle ∧
      (setAlertPropsAns apnspayload.NewPayload a sound).alertTitleLocKey = none ∧
      (setAlertPropsAns apnspayload.NewPayload a sound).alertTitleLocArgs = none) ∧
    (a.GetLocAlertTitle = none → a.GetSimpleAlertTitle = "" →
      (setAlertPropsAns apnspayload.NewPayload a sound).alertTitle = none ∧
      (setAlertPropsAns apnspayload.NewPayload a sound).alertTitleLocKey = none ∧
      (setAlertPropsAns apnspayload.NewPayload a sound).alertTitleLocArgs = none) ∧
    ¬ ((setAlertPropsAns apnspayload.NewPayload a sound).alertTitle.isSome = true ∧
       (setAlertPropsAns apnspayload.NewPayload a sound).alertTitleLocKey.isSome = true) ∧
    (∀ l, a.GetLocAlertBody = some l →
      (setAlertPropsAns apnspayload.NewPayload a sound).alertLocKey = some l.LocKey ∧
      (setAlertPropsAns apnspayload.NewPayload a sound).alertLocArgs = some l.LocArgs ∧
      (setAlertPropsAns apnspayload.NewPayload a sound).alertBody = none) ∧
    (a.GetLocAlertBody = none → a.GetSimpleAlertBody ≠ "" →
      (setAlertPropsAns apnspayload.NewPayload a sound).alertBody
        = some a.GetSimpleAlertBody ∧
      (setAlertPropsAns apnspayload.NewPayload a sound).alertLocKey = none ∧
      (setAlertPropsAns apnspayload.NewPayload a sound).alertLocArgs = none) ∧
    (a.GetLocAlertBody = none → a.GetSimpleAlertBody = "" →
      (setAlertPropsAns apnspayload.NewPayload a sound).alertBody = none ∧
      (setAlertPropsAns apnspayload.NewPayload a sound).alertLocKey = none ∧
      (setAlertPropsAns apnspayload.NewPayload a sound).alertLocArgs = none) ∧
    ¬ ((setAlertPropsAns apnspayload.NewPayload a sound).alertBody.isSome = true ∧
       (setAlertPropsAns apnspayload.NewPayload a sound).alertLocKey.isSome = true) ∧
    (∀ (a2 : api.AlertingPush) (sound2 : Option String), a2.AlertTitle = a.AlertTitle →
      (setAlertPropsAns apnspayload.NewPayload a2 sound2).alertTitle =
        (setAlertPropsAns apnspayload.NewPayload a sound).alertTitle ∧
      (setAlertPropsAns apnspayload.NewPayload a2 sound2).alertTitleLocKey =
        (setAlertPropsAns apnspayload.NewPayload a sound).alertTitleLocKey ∧
      (setAlertPropsAns apnspayload.NewPayload a2 sound2).alertTitleLocArgs =
        (setAlertPropsAns apnspayload.NewPayload a sound).alertTitleLocArgs) ∧
    (∀ (a2 : api.AlertingPush) (sound2 : Option String), a2.AlertBody = a.AlertBody →
      (setAlertPropsAns apnspayload.NewPayload a2 sound2).alertBody =
        (setAlertPropsAns apnspayload.NewPayload a sound).alertBody ∧
      (setAlertPropsAns apnspayload.NewPayload a2 sound2).alertLocKey =
        (setAlertPropsAns apnspayload.NewPayload a sound).alertLocKey ∧
      (setAlertPropsAns apnspayload.NewPayload a2 sound2).alertLocArgs =
        (setAlertPropsAns apnspayload.NewPayload a sound).alertLocArgs) := by
  obtain ⟨t1, t2, t3⟩ := setAlertPropsAns_title apnspayload.NewPayload a sound
  obtain ⟨b1, b2, b3⟩ := setAlertPropsAns_body apnspayload.NewPayload a sound
  refine ⟨?_, ?_, ?_, ?_, ?_, ?_, ?_, ?_, ?_, ?_⟩
  · intro l hl
    rw [t1, t2, t3, hl]
    exact ⟨rfl, rfl, rfl⟩
  · intro hl hs
    rw [t1, t2, t3, hl]
    simp [string_length_pos hs, apnspayload.NewPayload]
  · intro hl hs
    rw [t1, t2, t3, hl]
    simp [hs, apnspayload.NewPayload]
  · rw [t1, t2]
    cases a.GetLocAlertTitle <;> simp [apnspayload.NewPayload]
  · intro l hl
    rw [b1, b2, b3, hl]
    exact ⟨rfl, rfl, rfl⟩
  · intro hl hs
    rw [b1, b2, b3, hl]
    simp [string_length_pos hs, apnspayload.NewPayload]
  · intro hl hs
    rw [b1, b2, b3, hl]
    simp [hs, apnspayload.NewPayload]
  · rw [b1, b2]
    cases a.GetLocAlertBody <;> simp [apnspayload.NewPayload]
  · intro a2 sound2 h
    obtain ⟨u1, u2, u3⟩ := setAlertPropsAns_title apnspayload.NewPayload a2 sound2
    rw [t1, t2, t3, u1, u2, u3]
    simp [api.AlertingPush.GetLocAlertTitle, api.AlertingPush.GetSimpleAlertTitle, h]
  · intro a2 sound2 h
    obtain ⟨u1, u2, u3⟩ := setAlertPropsAns_body apnspayload.NewPayload a2 sound2
    rw [b1, b2, b3, u1, u2, u3]
    simp [api.AlertingPush.GetLocAlertBody, api.AlertingPush.GetSimpleAlertBody, h]

/-- A concrete instance of C17: a localized title with a plain body, and an
empty plain title. -/
theorem C17_witness :
    (setAlertPropsAns apnspayload.NewPayload
      { AlertTitle := some (.LocAlertTitle { LocKey := "NEW_MESSAGE", LocArgs := ["Ann"] })
        AlertBody := some (.SimpleAlertBody "There") } none).alertTitle = none ∧
    (setAlertPropsAns apnspayload.NewPayload
      { AlertTitle := some (.LocAlertTitle { LocKey := "NEW_MESSAGE", LocArgs := ["Ann"] })
        AlertBody := some (.SimpleAlertBody "There") } none).alertBody = some "There" ∧
    (setAlertPropsAns apnspayload.NewPayload
      { AlertTitle := some (.SimpleAlertTitle "") } (some "default")).alertTitle = none :=
  ⟨((C17_title_body_precedence
      { AlertTitle := some (.LocAlertTitle { LocKey := "NEW_MESSAGE", LocArgs := ["Ann"] })
        AlertBody := some (.SimpleAlertBody "There") } none).1
      { LocKey := "NEW_MESSAGE", LocArgs := ["Ann"] } rfl).2.2,
   ((C17_title_body_precedence
      { AlertTitle := some (.LocAlertTitle { LocKey := "NEW_MESSAGE", LocArgs := ["Ann"] })
        AlertBody := some (.SimpleAlertBody "There") } none).2.2.2.2.2.1 rfl
      (by decide)).1,
   ((C17_title_body_precedence { AlertTitle := some (.SimpleAlertTitle "") }
      (some "default")).2.2.1 rfl rfl).1⟩

/-- What the encrypted branch leaves for data that is not empty: the alert
population of the public push, if any, then mutable-content and the
`user_info` field. -/
theorem setEncryptedPayload_eq (env : Env) (src : api.EncryptedPush) (sound : Option String)
    (hd : src.EncryptedData ≠ []) :
    setEncryptedPayload env apnspayload.NewPayload src sound =
      (((match src.PublicAlertingPush with
          | some pub => setAlertPropsAns apnspayload.NewPayload pub sound
          | none => apnspayload.NewPayload).MutableContent).Custom "user_info"
        (.strMap [("nonce", Itoa src.Nonce),
                  ("encrypted_data", base64.EncodeToString src.EncryptedData)]), none) := by
  have hl : ¬ src.EncryptedData.length = 0 := by
    intro h; exact hd (List.length_eq_zero.mp h)
  simp only [setEncryptedPayload, hl, if_false]

/-- C15, as stated, fails: for an encrypted push with two bytes of data that
embeds a public alerting push with the category tag "chat", the conversion of
the public push at top level with allowAlerts on sets the custom `category`
field, and it is not true that the payload of the encrypted push has the field
set to the same value. -/
theorem C15_counterexample :
    ¬ (∀ v,
      (setAlertingPayloadAns apnspayload.NewPayload
        { AlertTitle := some (.SimpleAlertTitle "Hi"), Category := some ⟨"chat"⟩, Badge := 2 }
        (some "default") true).customField "category" = some v →
      (setEncryptedPayload Examples.env apnspayload.NewPayload
        { PublicAlertingPush := some
            { AlertTitle := some (.SimpleAlertTitle "Hi")
              Category := some ⟨"chat"⟩
              Badge := 2 }
          EncryptedData := [77, 97] } (some "default")).1.customField "category" = some v) := by
  intro h
  have h2 := h (.str "chat") rfl
  have h3 : (setEncryptedPayload Examples.env apnspayload.NewPayload
      { PublicAlertingPush := some
          { AlertTitle := some (.SimpleAlertTitle "Hi")
            Category := some ⟨"chat"⟩
            Badge := 2 }
        EncryptedData := [77, 97] } (some "default")).1.customField "category" = none := rfl
  rw [h3] at h2
  exact absurd h2 (by simp)

/-- C15, amended. For every encrypted push with data that is not empty and an
embedded public alerting push P, and for both values of allowAlerts, the
conversion runs `setAlertPropsAns` on P as the top-level conversion of P with
allowAlerts on does: the title or its localization key and arguments, the body
or its localization key and arguments, the sound and the badge are the same on
both payloads, and mutable-content is set on both; the custom `category` field
belongs to the top-level alerting branch only, the encrypted branch attaches
none; and the result does not depend on allowAlerts. -/
theorem C15_encrypted_public_alert (env : Env) (src : api.EncryptedPush)
    (pub : api.AlertingPush) (seq : Int) (ck : String) (supportsVoIP allowAlerts : Bool)
    (topic sound : Option String)
    (hp : src.PublicAlertingPush = some pub) (hd : src.EncryptedData ≠ []) :
    (setEncryptedPayload env apnspayload.NewPayload src sound).1.alertTitle =
      (setAlertingPayloadAns apnspayload.NewPayload pub sound true).alertTitle ∧
    (setEncryptedPayload env apnspayload.NewPayload src sound).1.alertTitleLocKey =
      (setAlertingPayloadAns apnspayload.NewPayload pub sound true).alertTitleLocKey ∧
    (setEncryptedPayload env apnspayload.NewPayload src sound).1.alertTitleLocArgs =
      (setAlertingPayloadAns apnspayload.NewPayload pub sound true).alertTitleLocArgs ∧
    (setEncryptedPayload env apnspayload.NewPayload src sound).1.alertBody =
      (setAlertingPayloadAns apnspayload.NewPayload pub sound true).alertBody ∧
    (setEncryptedPayload env apnspayload.NewPayload src sound).1.alertLocKey =
      (setAlertingPayloadAns apnspayload.NewPayload pub sound true).alertLocKey ∧
    (setEncryptedPayload env apnspayload.NewPayload src sound).1.alertLocArgs =
      (setAlertingPayloadAns apnspayload.NewPayload pub sound true).alertLocArgs ∧
    (setEncryptedPayload env apnspayload.NewPayload src sound).1.sound =
      (setAlertingPayloadAns apnspayload.NewPayload pub sound true).sound ∧
    (setEncryptedPayload env apnspayload.NewPayload src sound).1.badge =
      (setAlertingPayloadAns apnspayload.NewPayload pub sound true).badge ∧
    (setEncryptedPayload env apnspayload.NewPayload src sound).1.mutableContent = true ∧
    (setAlertingPayloadAns apnspayload.NewPayload pub sound true).mutableContent = true ∧
    (setEncryptedPayload env apnspayload.NewPayload src sound).1.contentAvailable =
      (setAlertingPayloadAns apnspayload.NewPayload pub sound true).contentAvailable ∧
    (setEncryptedPayload env apnspayload.NewPayload src sound).1.customField "category"
      = none ∧
    (setEncryptedPayload env apnspayload.NewPayload src sound).2 = none ∧
    variantBranch env { Body := some (.EncryptedPush src), Seq := seq, CollapseKey := ck }
      supportsVoIP allowAlerts sound =
      some (setEncryptedPayload env apnspayload.NewPayload src sound) ∧
    RequestPbToAns env { Body := some (.EncryptedPush src), Seq := seq, CollapseKey := ck }
      supportsVoIP allowAlerts topic sound =
      RequestPbToAns env { Body := some (.EncryptedPush src), Seq := seq, CollapseKey := ck }
        supportsVoIP (!allowAlerts) topic sound := by
  have key := setEncryptedPayload_eq env src sound hd
  rw [hp] at key
  have hcat : ((setAlertPropsAns apnspayload.NewPayload pub sound).MutableContent.Custom
      "user_info" (.strMap [("nonce", Itoa src.Nonce),
        ("encrypted_data", base64.EncodeToString src.EncryptedData)])).customField
      "category" = none := by
    simp [apnspayload.customField_Custom_ne, customField_MutableContent,
      customField_setAlertPropsAns, customField_NewPayload]
  refine ⟨?_, ?_, ?_, ?_, ?_, ?_, ?_, ?_, ?_, ?_, ?_, ?_, ?_,
    variantBranch_encrypted env src seq ck supportsVoIP allowAlerts sound, rfl⟩
  all_goals try rw [key]
  all_goals first
    | exact hcat
    | rfl
    | (cases hc : pub.Category <;>
        simp [setAlertingPayloadAns, hc, apnspayload.Payload.Custom,
          apnspayload.Payload.MutableContent])

/-- A concrete instance of the amended C15: the encrypted push of the
counterexample. -/
theorem C15_witness :
    (setEncryptedPayload Examples.env apnspayload.NewPayload
      { PublicAlertingPush := some
          { AlertTitle := some (.SimpleAlertTitle "Hi")
            Category := some ⟨"chat"⟩
            Badge := 2 }
        EncryptedData := [77, 97] } (some "default")).1.alertTitle =
      (setAlertingPayloadAns apnspayload.NewPayload
        { AlertTitle := some (.SimpleAlertTitle "Hi"), Category := some ⟨"chat"⟩, Badge := 2 }
        (some "default") true).alertTitle ∧
    (setEncryptedPayload Examples.env apnspayload.NewPayload
      { PublicAlertingPush := some
          { AlertTitle := some (.SimpleAlertTitle "Hi")
            Category := some ⟨"chat"⟩
            Badge := 2 }
        EncryptedData := [77, 97] } (some "default")).1.customField "category" = none :=
  ⟨(C15_encrypted_public_alert Examples.env
      { PublicAlertingPush := some
          { AlertTitle := some (.SimpleAlertTitle "Hi")
            Category := some ⟨"chat"⟩
            Badge := 2 }
        EncryptedData := [77, 97] }
      { AlertTitle := some (.SimpleAlertTitle "Hi"), Category := some ⟨"chat"⟩, Badge := 2 }
      0 "" true true none (some "default") rfl (by decide)).1,
   (C15_encrypted_public_alert Examples.env
      { PublicAlertingPush := some
          { AlertTitle := some (.SimpleAlertTitle "Hi")
            Category := some ⟨"chat"⟩
            Badge := 2 }
        EncryptedData := [77, 97] }
      { AlertTitle := some (.SimpleAlertTitle "Hi"), Category := some ⟨"chat"⟩, Badge := 2 }
      0 "" true true none (some "default") rfl (by decide)).2.2.2.2.2.2.2.2.2.2.2.1⟩

/-- C19. For every VoIP push converted with supportsVoIP on, the branch returns
no error and the payload carries the custom fields callId (the decimal string
of the numeric call id), callIdStr, attemptIndex, displayName, eventBusId,
updateType, disposalReason, video, token and endpoint with the values of the
source; a `peer` field is present exactly when the source has a peer and is
the string map with the keys id, type, strId; an `outPeer` field is present
exactly when the source has an out-peer and is the string map with the keys
id, type, accessHash, strId; a `merge` field is present exactly when the
source has a merge and is the map with `key` and `merge`, the latter being
"true" or "false" according to the boolean. -/
theorem C19_voip_fields (env : Env) (src : api.VoipPush) (seq : Int) (ck : String)
    (allowAlerts : Bool) (sound : Option String) :
    (setVoIPPayloadAns env apnspayload.NewPayload src true).2 = none ∧
    variantBranch env { Body := some (.VoipPush src), Seq := seq, CollapseKey := ck }
      true allowAlerts sound =
      some ((setVoIPPayloadAns env apnspayload.NewPayload src true).1, none) ∧
    (setVoIPPayloadAns env apnspayload.NewPayload src true).1.customField "callId"
      = some (.str (Itoa src.CallId)) ∧
    (setVoIPPayloadAns env apnspayload.NewPayload src true).1.customField "callIdStr"
      = some (.str src.CallIdStr) ∧
    (setVoIPPayloadAns env apnspayload.NewPayload src true).1.customField "attemptIndex"
      = some (.int src.AttemptIndex) ∧
    (setVoIPPayloadAns env apnspayload.NewPayload src true).1.customField "displayName"
      = some (.str src.DisplayName) ∧
    (setVoIPPayloadAns env apnspayload.NewPayload src true).1.customField "eventBusId"
      = some (.str src.EventBusId) ∧
    (setVoIPPayloadAns env apnspayload.NewPayload src true).1.customField "updateType"
      = some (.str src.UpdateType) ∧
    (setVoIPPayloadAns env apnspayload.NewPayload src true).1.customField "disposalReason"
      = some (.str src.DisposalReason) ∧
    (setVoIPPayloadAns env apnspayload.NewPayload src true).1.customField "video"
      = some (.bool src.Video) ∧
    (setVoIPPayloadAns env apnspayload.NewPayload src true).1.customField "token"
      = some (.str src.Token) ∧
    (setVoIPPayloadAns env apnspayload.NewPayload src true).1.customField "endpoint"
      = some (.str src.Endpoint) ∧
    (setVoIPPayloadAns env apnspayload.NewPayload src true).1.customField "peer"
      = src.Peer.map (fun peer => apnspayload.Value.strMap
          [("id", Itoa peer.Id),
           ("type", Itoa (env.PeerTypeProtobufToMPS peer.Type_)),
           ("strId", peer.StrId)]) ∧
    (setVoIPPayloadAns env apnspayload.NewPayload src true).1.customField "outPeer"
      = src.OutPeer.map (fun outPeer => apnspayload.Value.strMap
          [("id", Itoa outPeer.Id),
           ("type", Itoa (env.PeerTypeProtobufToMPS outPeer.Type_)),
           ("accessHash", Itoa outPeer.AccessHash),
           ("strId", outPeer.StrId)]) ∧
    (setVoIPPayloadAns env apnspayload.NewPayload src true).1.customField "merge"
      = src.Merge.map (fun merge => apnspayload.Value.strMap
          [("key", merge.Key), ("merge", FormatBool merge.Merge)]) ∧
    FormatBool true = "true" ∧ FormatBool false = "false" := by
  have herr := setVoIPPayloadAns_err env apnspayload.NewPayload src
  refine ⟨herr, ?_, ?_, ?_, ?_, ?_, ?_, ?_, ?_, ?_, ?_, ?_, ?_, ?_, ?_, rfl, rfl⟩
  · rw [variantBranch_voip, ← herr]
  all_goals
    cases hp : src.Peer <;> cases ho : src.OutPeer <;> cases hm : src.Merge <;>
      simp [setVoIPPayloadAns, hp, ho, hm, apnspayload.customField_Custom_ne,
        apnspayload.customField_Custom_self, customField_NewPayload]

end conversion

/-! ## The base64 round trip -/

namespace base64

theorem decodeChar_encodeChar (n : Nat) :
    decodeChar (encodeChar n) = some (n % 64) ∧ encodeChar n ≠ '=' := by
  have h : n % 64 < 64 := Nat.mod_lt _ (by decide)
  unfold encodeChar
  generalize n % 64 = m at h
  interval_cases m <;> exact ⟨rfl, by decide⟩

theorem byte_ofNat (a : api.Byte) (v : Nat) (h : v % 256 = a.val) :
    (Fin.ofNat v : api.Byte) = a := by
  apply Fin.ext
  simp only [Fin.ofNat]
  exact h

/-- Decoding the standard encoding of a byte string gives the byte string
back. -/
theorem decodeChars_encodeChars (d : List api.Byte) :
    decodeChars (encodeChars d) = some d := by
  induction d using encodeChars.induct with
  | case1 a b c rest ih =>
    have ha := a.isLt
    have hb := b.isLt
    have hc := c.isLt
    simp only [encodeChars, decodeChars, (decodeChar_encodeChar _).1,
      (decodeChar_encodeChar _).2, if_false, ih, Option.map_some']
    congr 1
    congr 1
    · exact byte_ofNat a _ (by omega)
    · congr 1
      · exact byte_ofNat b _ (by omega)
      · congr 1
        exact byte_ofNat c _ (by omega)
  | case2 a b =>
    have ha := a.isLt
    have hb := b.isLt
    simp only [encodeChars, decodeChars, (decodeChar_encodeChar _).1,
      (decodeChar_encodeChar _).2, if_false, if_true]
    congr 1
    congr 1
    · exact byte_ofNat a _ (by omega)
    · congr 1
      exact byte_ofNat b _ (by omega)
  | case3 a =>
    have ha := a.isLt
    simp only [encodeChars, decodeChars, (decodeChar_encodeChar _).1,
      (decodeChar_encodeChar _).2, if_false, if_true, and_self]
    congr 1
    congr 1
    exact byte_ofNat a _ (by omega)
  | case4 => rfl

theorem DecodeString_EncodeToString (d : List api.Byte) :
    DecodeString (EncodeToString d) = some d := by
  simp only [DecodeString, EncodeToString]
  exact decodeChars_encodeChars d

end base64

namespace conversion

/-- C16. For every encrypted push with data `d` that is not empty and nonce
`k`, the branch returns no error and the payload has mutable-content set and
one custom field, `user_info`, a string map with exactly two entries: `nonce`,
the decimal string of `k`, and `encrypted_data`, the standard padded base64
encoding of `d`, so that decoding `encrypted_data` gives `d` back. -/
theorem C16_encrypted_user_info (env : Env) (src : api.EncryptedPush)
    (sound : Option String) (hd : src.EncryptedData ≠ []) :
    (setEncryptedPayload env apnspayload.NewPayload src sound).2 = none ∧
    (setEncryptedPayload env apnspayload.NewPayload src sound).1.mutableContent = true ∧
    (setEncryptedPayload env apnspayload.NewPayload src sound).1.custom =
      [("user_info", .strMap
        [("nonce", Itoa src.Nonce),
         ("encrypted_data", base64.EncodeToString src.EncryptedData)])] ∧
    (setEncryptedPayload env apnspayload.NewPayload src sound).1.customField "user_info" =
      some (.strMap
        [("nonce", Itoa src.Nonce),
         ("encrypted_data", base64.EncodeToString src.EncryptedData)]) ∧
    Itoa src.Nonce = toString src.Nonce ∧
    base64.DecodeString (base64.EncodeToString src.EncryptedData)
      = some src.EncryptedData := by
  rw [setEncryptedPayload_eq env src sound hd]
  refine ⟨rfl, rfl, ?_, apnspayload.customField_Custom_self _ _ _, rfl,
    base64.DecodeString_EncodeToString _⟩
  cases src.PublicAlertingPush with
  | none => rfl
  | some pub =>
    have h := (setAlertPropsAns_custom apnspayload.NewPayload pub sound).1
    simp only [apnspayload.Payload.Custom, apnspayload.Payload.MutableContent, h]
    rfl

/-- A concrete instance of C16: the two bytes "Ma" with the nonce -7. -/
theorem C16_witness :
    (setEncryptedPayload Examples.env apnspayload.NewPayload
      { Nonce := -7, EncryptedData := [77, 97] } none).1.customField "user_info" =
      some (.strMap [("nonce", "-7"), ("encrypted_data", "TWE=")]) ∧
    base64.DecodeString "TWE=" = some [77, 97] :=
  ⟨(C16_encrypted_user_info Examples.env { Nonce := -7, EncryptedData := [77, 97] } none
      (by decide)).2.2.2.1,
   (C16_encrypted_user_info Examples.env { Nonce := -7, EncryptedData := [77, 97] } none
      (by decide)).2.2.2.2.2⟩

end conversion

/-! ## Properties of the APNs adapter -/

namespace workerans

/-- C20. For `sendNotification(ctx, token, out)` of the APNs adapter: when `out`
is not an APNs request it returns `ErrInvalidOutDataType` without calling the
provider; otherwise it calls the provider once, with the request whose token is
`token` and whose headers and payload are unchanged; a transport error is
returned as it is; an answer with a status code other than 200 gives the error
whose text is the decimal status code, a space and the reason; and it returns
nil if and only if the provider call succeeded with status code 200. -/
theorem C20_sendNotification {World Ctx : Type} (w : Worker World Ctx) (ctx : Ctx)
    (token : String) (out : Any) (world : World) :
    (∀ name, out = .other name →
      (w.sendNotification ctx token out world).err = some worker.ErrInvalidOutDataType ∧
      (w.sendNotification ctx token out world).sent = [] ∧
      (w.sendNotification ctx token out world).out = out ∧
      (w.sendNotification ctx token out world).world = world) ∧
    (∀ req, out = .ansRequest req →
      (w.sendNotification ctx token out world).sent =
        [{ Token := token, Headers := req.Headers, Payload := req.Payload }] ∧
      (w.sendNotification ctx token out world).out =
        .ansRequest { Token := token, Headers := req.Headers, Payload := req.Payload } ∧
      (w.sendNotification ctx token out world).world =
        (w.provider.Send ctx
          { Token := token, Headers := req.Headers, Payload := req.Payload } world).2 ∧
      (∀ e, (w.provider.Send ctx
          { Token := token, Headers := req.Headers, Payload := req.Payload } world).1
            = .error e →
        (w.sendNotification ctx token out world).err = some e) ∧
      (∀ answer, (w.provider.Send ctx
          { Token := token, Headers := req.Headers, Payload := req.Payload } world).1
            = .ok answer →
        answer.StatusCode ≠ 200 →
        (w.sendNotification ctx token out world).err =
          some ⟨conversion.Itoa answer.StatusCode ++ " " ++ answer.Reason⟩) ∧
      (∀ answer, (w.provider.Send ctx
          { Token := token, Headers := req.Headers, Payload := req.Payload } world).1
            = .ok answer →
        answer.StatusCode = 200 →
        (w.sendNotification ctx token out world).err = none)) ∧
    ((w.sendNotification ctx token out world).err = none ↔
      ∃ req answer, out = .ansRequest req ∧
        (w.provider.Send ctx
          { Token := token, Headers := req.Headers, Payload := req.Payload } world).1
            = .ok answer ∧
        answer.StatusCode = 200) := by
  cases out with
  | other name =>
    refine ⟨?_, ?_, ?_⟩
    · intro name2 _
      exact ⟨rfl, rfl, rfl, rfl⟩
    · intro req h
      cases h
    · simp [Worker.sendNotification]
  | ansRequest req0 =>
    refine ⟨?_, ?_, ?_⟩
    · intro name h
      cases h
    · intro req h
      cases h
      cases hs : (w.provider.Send ctx
          { Token := token, Headers := req0.Headers, Payload := req0.Payload } world).1 with
      | error e =>
        simp [Worker.sendNotification, hs]
      | ok answer =>
        by_cases hc : answer.StatusCode = 200 <;>
          simp [Worker.sendNotification, hs, hc]
    · cases hs : (w.provider.Send ctx
          { Token := token, Headers := req0.Headers, Payload := req0.Payload } world).1 with
      | error e =>
        simp [Worker.sendNotification, hs]
      | ok answer =>
        by_cases hc : answer.StatusCode = 200 <;>
          simp [Worker.sendNotification, hs, hc]

/-- A concrete instance of C20: a value that is not a request, an accepted
token, a rejected token and an unreachable provider. -/
theorem C20_witness :
    (Examples.ansWorker.sendNotification () "tok" (.other "gcm.Request") 0).err
      = some worker.ErrInvalidOutDataType ∧
    (Examples.ansWorker.sendNotification () "tok" (.ansRequest Examples.builtRequest) 0).err
      = none ∧
    (Examples.ansWorker.sendNotification () "bad" (.ansRequest Examples.builtRequest) 0).err
      = some ⟨"400 BadDeviceToken"⟩ ∧
    (Examples.ansWorker.sendNotification () "down" (.ansRequest Examples.builtRequest) 0).err
      = some ⟨"connection refused"⟩ :=
  ⟨((C20_sendNotification Examples.ansWorker () "tok" (.other "gcm.Request") 0).1
      "gcm.Request" rfl).1,
   ((C20_sendNotification Examples.ansWorker () "tok"
      (.ansRequest Examples.builtRequest) 0).2.1 Examples.builtRequest rfl).2.2.2.2.2
      ⟨200, ""⟩ rfl rfl,
   ((C20_sendNotification Examples.ansWorker () "bad"
      (.ansRequest Examples.builtRequest) 0).2.1 Examples.builtRequest rfl).2.2.2.2.1
      ⟨400, "BadDeviceToken"⟩ rfl (by decide),
   ((C20_sendNotification Examples.ansWorker () "down"
      (.ansRequest Examples.builtRequest) 0).2.1 Examples.builtRequest rfl).2.2.2.1
      ⟨"connection refused"⟩ rfl⟩

end workerans

end PushService
